import Mathlib

set_option maxHeartbeats 1000000
set_option maxRecDepth 4000

/-!
Shallow embedding of the curling shot-simulation engine
(`curling/game.py`, `curling/simulation.py`, `curling/utils.py`).

Python floats are modelled as exact rationals (`ℚ`); the stone-dynamics
hook, which genuinely needs `exp`/`sqrt`, is modelled over the reals in
its own section.  Stateful code (the pymunk `Space`, the `Simulation`
object) is modelled by explicit state passing; exceptions and asserts
become `Except`.
-/

/- ### Constants

`curling/constants.py` is not part of src/; the constants below carry the
values fixed by the comment block in `utils.getNextPlayer`
("2 = player 1 stone not thrown yet", "-3 = player 2 stone out of play", ...)
and by section 3 of the spec (metadata codes, team codes, team-2 codes are
the negation of team-1 codes). -/

/-- Team-1 marker (`c.P1`); `utils.getNextPlayer` returns `1` for player one. -/
def P1 : Int := 1

/-- Team-2 marker (`c.P2`); `utils.getNextPlayer` returns `-1` for player two. -/
def P2 : Int := -1

/-- Modelled from the spec: `c.EMPTY`, the in-play metadata code and the empty
grid-cell value ("0 = empty ice"; spec section 3: a metadata slot holds
`EMPTY` when the stone is in play and its position is encoded in the grid). -/
def EMPTY : Int := 0

/-- Modelled from the spec: `c.P1_NOT_THROWN` (comment in `utils.getNextPlayer`:
"2 = player 1 stone not thrown yet"). -/
def P1_NOT_THROWN : Int := 2

/-- Modelled from the spec: `c.P2_NOT_THROWN` ("-2 = player 2 stone not thrown yet"). -/
def P2_NOT_THROWN : Int := -2

/-- Modelled from the spec: `c.P1_OUT_OF_PLAY` ("3 = player 1 stone out of play"). -/
def P1_OUT_OF_PLAY : Int := 3

/-- Modelled from the spec: `c.P2_OUT_OF_PLAY` ("-3 = player 2 stone out of play"). -/
def P2_OUT_OF_PLAY : Int := -3

/-- Modelled from the spec: colors are strings (`'red'`/`'blue'`) in the source;
they are in bijection with the team ids (`Stone.getTeamId`), so we model
`c.P1_COLOR` by the team-1 id. -/
def P1_COLOR : Int := 1

/-- Modelled from the spec: `c.P2_COLOR`, modelled by the team-2 id. -/
def P2_COLOR : Int := -1

/-- The `Space.shooter_color` initial value `'Unknown'`, distinct from both colors. -/
def UNKNOWN_COLOR : Int := 0

/-- Modelled from the spec: `c.STONE_RADIUS_IN` is absent from src/ (constants.py);
we fix the standard curling-stone radius of 5.73 inches.  All theorems below that
depend on it are stated so that the property proved does not hinge on the exact
figure. -/
def STONE_RADIUS_IN : ℚ := 5.73

/-- Modelled from the spec: `c.BOARD_RESOLUTION` (board cells per inch) is absent
from src/ (constants.py).  We fix 1/8, which satisfies the spec's invariant that
the resolution be coarse enough that two stones can never occupy one cell
(cell diagonal < stone diameter). -/
def BOARD_RESOLUTION : ℚ := 1/8

/- ### Unit and coordinate system (curling/utils.py) -/

/-- `utils.dist(inches, feet, meters)`: all lengths in inches (the Python
keyword defaults of 0 are passed explicitly at every call site below; the
source name `dist` is shadowed by Mathlib, hence the prime). -/
def dist' (inches feet meters : ℚ) : ℚ :=
  feet * 12 + inches + meters * 39.3701

/-- `utils.ICE_WIDTH = dist(feet=14)`. -/
def ICE_WIDTH : ℚ := dist' 0 14 0

/-- `utils.ICE_LENGTH = dist(feet=130)`. -/
def ICE_LENGTH : ℚ := dist' 0 130 0

/-- `utils.BOX_LENGTH = dist(feet=27)`. -/
def BOX_LENGTH : ℚ := dist' 0 27 0

/-- `utils.STONE_RADIUS = dist(inches=c.STONE_RADIUS_IN)`. -/
def STONE_RADIUS : ℚ := dist' STONE_RADIUS_IN 0 0

/-- `utils.HOG_LINE = ICE_LENGTH - BOX_LENGTH`. -/
def HOG_LINE : ℚ := ICE_LENGTH - BOX_LENGTH

/-- `utils.BACKLINE = ICE_LENGTH`. -/
def BACKLINE : ℚ := ICE_LENGTH

/-- `utils.BACKLINE_BUFFER = 2 * STONE_RADIUS`. -/
def BACKLINE_BUFFER : ℚ := 2 * STONE_RADIUS

/-- `utils.BACKLINE_ELIM = BACKLINE + BACKLINE_BUFFER`. -/
def BACKLINE_ELIM : ℚ := BACKLINE + BACKLINE_BUFFER

/-- `utils.X_SCALE = (ICE_WIDTH - 2.0 * STONE_RADIUS) / ICE_WIDTH`. -/
def X_SCALE : ℚ := (ICE_WIDTH - 2 * STONE_RADIUS) / ICE_WIDTH

/-- `utils.Y_SCALE = (BACKLINE_ELIM - 0.0 * STONE_RADIUS) / BACKLINE_ELIM`. -/
def Y_SCALE : ℚ := (BACKLINE_ELIM - 0 * STONE_RADIUS) / BACKLINE_ELIM

/-- `utils.ADJUSTER = 0.5`. -/
def ADJUSTER : ℚ := 0.5

/-- Python `int()` on a float truncates toward zero. -/
def pyInt (q : ℚ) : Int := if q < 0 then Int.ceil q else Int.floor q

/-- `utils.realToBoard(x, y)`: continuous position to board-grid indices. -/
def realToBoard (x y : ℚ) : Int × Int :=
  let bx := (x + ICE_WIDTH / 2 - STONE_RADIUS) / X_SCALE * BOARD_RESOLUTION - ADJUSTER
  let by' := (y - HOG_LINE - STONE_RADIUS) / Y_SCALE * BOARD_RESOLUTION - ADJUSTER
  (pyInt bx, pyInt by')

/-- `utils.boardToReal(x, y)`: board-grid indices back to a continuous position. -/
def boardToReal (x y : ℚ) : ℚ × ℚ :=
  (((x + ADJUSTER) / BOARD_RESOLUTION) * X_SCALE + STONE_RADIUS - ICE_WIDTH / 2,
   ((y + ADJUSTER) / BOARD_RESOLUTION) * Y_SCALE + STONE_RADIUS + HOG_LINE)

/-- Width of one board-grid cell along x, in real inches
(`boardToReal` advances by this much per unit of board x). -/
def cellX : ℚ := X_SCALE / BOARD_RESOLUTION

/-- Height of one board-grid cell along y, in real inches. -/
def cellY : ℚ := Y_SCALE / BOARD_RESOLUTION

/-- A continuous point inside the playing surface. -/
def inSurface (x y : ℚ) : Prop :=
  -ICE_WIDTH / 2 ≤ x ∧ x ≤ ICE_WIDTH / 2 ∧ 0 ≤ y ∧ y ≤ ICE_LENGTH

/-- `utils.getBoardSize` grid width: `int(ICE_WIDTH * c.BOARD_RESOLUTION)`
(the extra data layer is kept separately in `Board` below).  Stated as the
literal so the kernel can compute with board indices; `BOARD_WIDTH_src`
proves it equal to the source formula. -/
def BOARD_WIDTH : Nat := 21

/-- `utils.getBoardSize` grid height: `int(BOX_LENGTH * c.BOARD_RESOLUTION)`;
literal as for `BOARD_WIDTH`, see `BOARD_HEIGHT_src`. -/
def BOARD_HEIGHT : Nat := 40

/-- An in-range board-grid cell index. -/
def inGridRange (bx by' : Int) : Prop :=
  0 ≤ bx ∧ bx < (BOARD_WIDTH : Int) ∧ 0 ≤ by' ∧ by' < (BOARD_HEIGHT : Int)

/- ### The board tensor (utils.getInitBoard / getBoardSize)

`np.zeros((width_px + 1, height_px))` with the last row the metadata row.
The grid rows are `Fin BOARD_WIDTH`; the data row is modelled as its 16
meaningful slots (`board[-1][0:16]`): the remaining `BOARD_HEIGHT - 16`
cells of the last row are zero in every board the engine constructs and
are never matched by the scans for the stone markers or the out-of-play
codes, all of which are nonzero. -/

structure Board where
  grid : Fin BOARD_WIDTH → Fin BOARD_HEIGHT → Int
  data : Fin 16 → Int

instance : DecidableEq Board := fun a b =>
  decidable_of_iff (a.grid = b.grid ∧ a.data = b.data)
    (by cases a; cases b; simp)

/-- `utils.getInitBoard`: empty grid, data row `22222222 -2-2-2-2-2-2-2-2`. -/
def getInitBoard : Board :=
  { grid := fun _ _ => 0
    data := fun i => if i.val < 8 then P1_NOT_THROWN else P2_NOT_THROWN }

/-- Modelled from the spec: `utils.getCanonicalForm` is called by
`CurlingGame.getCanonicalForm` (game.py) but its definition is not under src/.
Spec section 4.6: "if `player` is the second player, negate all team markers and
metadata signs (team relabeling) ...; identity transform otherwise". -/
def getCanonicalForm (b : Board) (player : Int) : Board :=
  if player = P2 then
    { grid := fun x y => -(b.grid x y), data := fun i => -(b.data i) }
  else b

/-- Modelled from the spec: `board.thrownStones` is called by
`CurlingGame.getValidMoves`/`getGameEnded` but `board.py` is not under src/.
A team-1 slot has been thrown when it no longer holds `P1_NOT_THROWN`,
likewise for team 2 (spec section 3 metadata codes). -/
def thrownStones (b : Board) : Nat :=
  (List.finRange 16).countP fun i =>
    if i.val < 8 then b.data i != P1_NOT_THROWN else b.data i != P2_NOT_THROWN

instance {e a : Type} [DecidableEq e] [DecidableEq a] : DecidableEq (Except e a) :=
  fun x y =>
    match x, y with
    | Except.error u, Except.error v => decidable_of_iff (u = v) (by simp)
    | Except.ok u, Except.ok v => decidable_of_iff (u = v) (by simp)
    | Except.error _, Except.ok _ => isFalse (by simp)
    | Except.ok _, Except.error _ => isFalse (by simp)

/-- Loop body of `utils.getNextPlayer` (`for i in range(8)`), iterating over
the remaining loop indices. -/
def getNextPlayerGo (b : Board) : List (Fin 8) → Except String Int
  | [] => Except.error "It is nobodys turn."
  | i :: rest =>
    if b.data ⟨i.val, by have := i.isLt; omega⟩ = P1_NOT_THROWN then Except.ok 1
    else if b.data ⟨i.val + 8, by have := i.isLt; omega⟩ = P2_NOT_THROWN then Except.ok (-1)
    else getNextPlayerGo b rest

/-- `utils.getNextPlayer`: first team with an unthrown stone, scanning slots
pairwise; raises when neither team has one (the `player` argument only feeds
the exception message in the source). -/
def getNextPlayer (b : Board) (_player : Int) : Except String Int :=
  getNextPlayerGo b (List.finRange 8)

/- ### Action codec (constants.py is not under src/) -/

/-- Modelled from the spec: the handle (spin direction) values
`\x7bLEFT, RIGHT\x7d` of `c.ACTION_LIST`, encoded as the angular-velocity
signs the simulation assigns. -/
def HANDLES : List Int := [-1, 1]

/-- Modelled from the spec: the weight (power) categories of `c.ACTION_LIST`;
the mask logic never inspects them, so three representative categories. -/
def WEIGHTS : List Nat := [0, 1, 2]

/-- Modelled from the spec: the broom (aim offset, feet) values of
`c.ACTION_LIST`, a symmetric integer range around zero. -/
def BROOMS : List Int := [-4, -3, -2, -1, 0, 1, 2, 3, 4]

/-- Modelled from the spec: `c.ACTION_LIST`, "a fixed lookup table" of
`(handle, weight, broom)` triples (spec section 4.7), the product of the
three component ranges. -/
def ACTION_LIST : List (Int × Nat × Int) :=
  HANDLES.flatMap fun h => WEIGHTS.flatMap fun w => BROOMS.map fun b => (h, w, b)

/-- `utils.decodeAction`: index into `c.ACTION_LIST` (a Python IndexError on an
out-of-range index becomes `none`; the `assert action >= 0` is carried by `Nat`). -/
def decodeAction (action : Nat) : Option (Int × Nat × Int) :=
  ACTION_LIST.get? action

/-- `CurlingGame.getActionSize`. -/
def getActionSize : Nat := ACTION_LIST.length

/-- `CurlingGame.getValidMoves` (game.py): canonicalize, guard against a
finished game, check the side to move, then mask out every action whose
decoded handle and broom are both strictly positive or both strictly negative
(`h * b > 0`), raising if the mask would be all-false. -/
def getValidMoves (board : Board) (player : Int) : Except String (List Int) :=
  let b := getCanonicalForm board player
  if 16 ≤ thrownStones b then Except.error "getValidMoves requested after game end."
  else
    match getNextPlayer b 1 with
    | Except.error e => Except.error e
    | Except.ok player_turn =>
      if player_turn = 1 then
        let all_actions := (List.range getActionSize).map fun action =>
          match decodeAction action with
          | some hwb => if hwb.1 * hwb.2.2 > 0 then (0 : Int) else 1
          | none => 1
        if all_actions.sum = 0 then Except.error "No valid moves. This shouldnt happen"
        else Except.ok all_actions
      else Except.error "Moves requested for player do not match next player"

/- ### Stones and the physics space (utils.Stone, utils.Space) -/

/-- `utils.Stone`: the physics-engine-resident entity.  Velocity and spin live
in the excluded physics engine and are not observed by any rule embedded here;
`is_shooter` records whether the stone was injected with an action, `is_guard`
is set from the position at creation time (`Stone.updateGuardValue`). -/
structure Stone where
  id : Nat
  color : Int
  pos : ℚ × ℚ
  is_guard : Bool
  is_shooter : Bool
deriving DecidableEq

/-- `utils.Space`: live stones plus the engine-wide rule state
(removed-stone counters, violation flag, current shooter color). -/
structure SpaceState where
  stones : List Stone
  p1_removed_stones : Nat
  p2_removed_stones : Nat
  five_rock_rule_violation : Bool
  shooter_color : Int
deriving DecidableEq

/-- `Stone.getTeamId`: `c.P1` when the color is team 1's, else `c.P2`. -/
def Stone.getTeamId (s : Stone) : Int := if s.color = P1_COLOR then P1 else P2

/-- `Space.thrownStonesCount`: live stones plus both removed counters. -/
def SpaceState.thrownStonesCount (sp : SpaceState) : Nat :=
  sp.stones.length + sp.p1_removed_stones + sp.p2_removed_stones

/-- The tee-line y coordinate used by `Stone.updateGuardValue`:
`hog_line = radius + dist(feet=6+6+21+72)`, `tee_line = hog_line + dist(feet=21)`. -/
def teeLineY : ℚ := STONE_RADIUS + dist' 0 (6 + 6 + 21 + 72) 0 + dist' 0 21 0

/-- `Stone.updateGuardValue` as a predicate of the position: before the tee
line and outside the house.  The source compares the euclidean distance
`from_pin` against `dist(feet=6) + STONE_RADIUS`; both sides are nonnegative,
so the comparison is embedded on squares (sqrt is strictly monotone on them). -/
def isGuardPos (p : ℚ × ℚ) : Bool :=
  decide (p.2 < teeLineY ∧
    (dist' 0 6 0 + STONE_RADIUS) ^ 2 < p.1 ^ 2 + (p.2 - teeLineY) ^ 2)

/-- `Stone.updateGuardValue`. -/
def Stone.updateGuardValue (s : Stone) : Stone :=
  { s with is_guard := isGuardPos s.pos }

/-- `Space.remove_stone`: bump the exiting stone's team counter and delete the
stone from the live set. -/
def SpaceState.remove_stone (sp : SpaceState) (st : Stone) : SpaceState :=
  if st.getTeamId = P1 then
    { sp with p1_removed_stones := sp.p1_removed_stones + 1, stones := sp.stones.erase st }
  else
    { sp with p2_removed_stones := sp.p2_removed_stones + 1, stones := sp.stones.erase st }

/-- `utils.five_rock_rule(stone, space)`: an exiting stone may not be removed
when at most five stones are thrown, it belongs to the non-shooting team and
it is a guard. -/
def five_rock_rule (stone : Stone) (space : SpaceState) : Bool :=
  if space.thrownStonesCount > 5 then false
  else if stone.color = space.shooter_color then false
  else if stone.is_guard = false then false
  else true

/-- The wall-collision callback registered by `utils.addBoundaries` (its inner
`remove_stone(arbiter, space, data)`): either flag a 5-rock violation and keep
the stone (rejecting the collision, second component `false`), or remove the
stone and accept the collision. -/
def wallRemoveStone (local_space : SpaceState) (stone : Stone) : SpaceState × Bool :=
  if five_rock_rule stone local_space then
    ({ local_space with five_rock_rule_violation := true }, false)
  else
    (local_space.remove_stone stone, true)

/-- Concrete space for the C4 witness: three stones thrown (two team-1 removed,
one team-2 removed), team 1 currently shooting. -/
def spw : SpaceState := ⟨[], 2, 1, false, P1_COLOR⟩

/-- Concrete exiting stone for the C4 witness: a team-2 guard at (0, 1300). -/
def stw : Stone := ⟨0, P2_COLOR, (0, 1300), true, false⟩

/- ### The simulation (curling/simulation.py)

The pymunk engine itself (integration, collision resolution) is the excluded
collaborator (spec section 1).  A `space.step` is abstracted by the list of
live stones (indices into the live-stone list) that hit a boundary wall
during that step, each processed by the collision callback `wallRemoveStone`
exactly as `utils.addBoundaries` registers it.  A run is driven by a finite
trace of such steps; trace exhaustion covers both loop exits of
`Simulation.run` that keep the current state (all stones at rest, and the
60-simulated-seconds cap, which only logs a warning). -/

/-- `simulation.Simulation`: the space plus the pre-shot snapshot kept for
5-rock rollback. -/
structure Simulation where
  space : SpaceState
  board_before_action : Board
deriving DecidableEq

/-- Loop body of `simulation.getNextStoneId` (`for i in range(8)`). -/
def getNextStoneIdGo (b : Board) : List (Fin 8) → Except String Nat
  | [] => Except.error "Id requested for 9th rock."
  | i :: rest =>
    if b.data ⟨i.val, by have := i.isLt; omega⟩ = P1_NOT_THROWN then Except.ok i.val
    else if b.data ⟨i.val + 8, by have := i.isLt; omega⟩ = P2_NOT_THROWN then
      Except.ok (i.val + 8)
    else getNextStoneIdGo b rest

/-- `simulation.getNextStoneId(board)`: "stone number as it would be in
physical game"; raises once neither team has an unthrown slot. -/
def getNextStoneId (b : Board) : Except String Nat :=
  getNextStoneIdGo b (List.finRange 8)

/-- A grid write `board[x][y] = v`.  numpy would raise or wrap on an
out-of-range index; every use below is proved in bounds, and an out-of-range
write is dropped (the bounds test lives inside the cell function so that the
untouched data row stays transparent). -/
def writeGrid (b : Board) (ix iy : Int) (v : Int) : Board :=
  { b with grid := fun x y =>
      if 0 ≤ ix ∧ ix < (BOARD_WIDTH : Int) ∧ 0 ≤ iy ∧ iy < (BOARD_HEIGHT : Int)
          ∧ x.val = ix.toNat ∧ y.val = iy.toNat then v
      else b.grid x y }

/-- A metadata write `board[-1][i] = v`; same bounds convention. -/
def writeData (b : Board) (i : Nat) (v : Int) : Board :=
  if i < 16 then
    { b with data := fun j => if j.val = i then v else b.data j }
  else b

/-- The loop body of `Simulation.getBoard` over the live stones: write the
stone's team marker at its `realToBoard` cell and an in-play (`EMPTY`)
metadata slot, advancing that team's running id. -/
def getBoardStep (acc : Board × Nat × Nat) (st : Stone) : Board × Nat × Nat :=
  let xy := realToBoard st.pos.1 st.pos.2
  let b := writeGrid acc.1 xy.1 xy.2 st.getTeamId
  if st.getTeamId = P1 then (writeData b acc.2.1 EMPTY, acc.2.1 + 1, acc.2.2)
  else if st.getTeamId = P2 then (writeData b (acc.2.2 + 8) EMPTY, acc.2.1, acc.2.2 + 1)
  else (b, acc.2)

/-- `Simulation.getBoard`: encode the engine state as a tensor.  Start from a
fresh init board, mark the leading metadata slots of each team `OUT_OF_PLAY`
per the removed counters, then every live stone (in space order) writes
through `getBoardStep`, ids running on from the removed counts. -/
def getBoard (sp : SpaceState) : Board :=
  let board := getInitBoard
  let board := { board with data := fun i =>
    if i.val < sp.p1_removed_stones then P1_OUT_OF_PLAY else board.data i }
  let board := { board with data := fun i =>
    if 8 ≤ i.val ∧ i.val < sp.p2_removed_stones + 8 then P2_OUT_OF_PLAY else board.data i }
  (sp.stones.foldl getBoardStep (board, sp.p1_removed_stones, sp.p2_removed_stones)).1

/-- The grid-row part of `np.argwhere(board == v)`, row-major. -/
def argwhereGrid (b : Board) (v : Int) : List (Nat × Nat) :=
  (List.finRange BOARD_WIDTH).flatMap fun x =>
    (List.finRange BOARD_HEIGHT).filterMap fun y =>
      if b.grid x y = v then some (x.val, y.val) else none

/-- The data-row part of `np.argwhere(board == v)` (row index `BOARD_WIDTH`). -/
def argwhereData (b : Board) (v : Int) : List (Nat × Nat) :=
  (List.finRange 16).filterMap fun i =>
    if b.data i = v then some (BOARD_WIDTH, i.val) else none

/-- `np.argwhere(board == v)` in row-major index order over the whole tensor:
grid rows first, then the data row (row index `BOARD_WIDTH`).  The unmodelled
trailing data-row cells are always zero and `v` is nonzero at every call site. -/
def argwhere (b : Board) (v : Int) : List (Nat × Nat) :=
  argwhereGrid b v ++ argwhereData b v

/-- `Simulation.resetBoard`: remove every live stone from the space. -/
def Simulation.resetBoard (sim : Simulation) : Simulation :=
  { sim with space := { sim.space with stones := [] } }

/-- `Simulation.addStone(color, x, y, action, stone_id)`: create a stone, set
its guard flag from the creation position (`updateGuardValue`), take the next
stone id from the currently encoded board when none is given; with an action
the stone becomes the shooter (the action-derived velocity and spin live in
the excluded physics engine; an out-of-range action index raises, as the
Python lookup would).  The stone is appended to the space. -/
def addStone (sim : Simulation) (color : Int) (x y : ℚ)
    (action : Option Nat) (stone_id : Option Nat) : Except String Simulation := do
  let sid ← match stone_id with
    | some s => Except.ok s
    | none => getNextStoneId (getBoard sim.space)
  let base : Stone :=
    Stone.updateGuardValue
      { id := sid, color := color, pos := (x, y), is_guard := false, is_shooter := false }
  let st ← match action with
    | some a =>
      match decodeAction a with
      | some _ => Except.ok { base with is_shooter := true }
      | none => Except.error "action index out of range"
    | none => Except.ok base
  Except.ok { sim with space := { sim.space with stones := sim.space.stones ++ [st] } }

/-- The per-cell body of `Simulation.setupBoard`: re-create one stone of the
given color at the decoded cell position. -/
def setupStone (color : Int) (s : Simulation) (c : Nat × Nat) : Except String Simulation :=
  let xy := boardToReal (c.1 : ℚ) (c.2 : ℚ)
  addStone s color xy.1 xy.2 none none

/-- `Simulation.setupBoard(new_board)`: clear the live stones, re-create one
stone per team marker in the tensor (team 1 first, `np.argwhere` scan order),
then set the removed counters from the `OUT_OF_PLAY` counts of the tensor. -/
def setupBoard (sim : Simulation) (new_board : Board) : Except String Simulation := do
  let sim := sim.resetBoard
  let sim ← (argwhere new_board P1).foldlM (setupStone P1_COLOR) sim
  let sim ← (argwhere new_board P2).foldlM (setupStone P2_COLOR) sim
  Except.ok { sim with space := { sim.space with
    p1_removed_stones := (argwhere new_board P1_OUT_OF_PLAY).length,
    p2_removed_stones := (argwhere new_board P2_OUT_OF_PLAY).length } }

/-- `utils.getPlayerColor`. -/
def getPlayerColor (player : Int) : Int := if player = 1 then P1_COLOR else P2_COLOR

/-- `Simulation.setupAction(player, action)`: snapshot the pre-shot board for
rollback, inject the shooter at the throw line (0, 0) with the action, record
the shooter color on the space. -/
def setupAction (sim : Simulation) (player : Int) (action : Nat) :
    Except String Simulation := do
  let sim := { sim with board_before_action := getBoard sim.space }
  let sim ← addStone sim (getPlayerColor player) 0 0 (some action) none
  Except.ok { sim with space := { sim.space with shooter_color := getPlayerColor player } }

/-- `Simulation.addShooterAsInvalid`: build a fresh tensor from the current
space, mark the would-be shooter's slot `OUT_OF_PLAY` on it and return it.
The Python method mutates only this freshly built local array and discards
it, so the simulation state is unchanged; `runLoop` below accordingly ignores
the returned board, mirroring the source. -/
def addShooterAsInvalid (sim : Simulation) : Except String Board := do
  let board := getBoard sim.space
  let team ← getNextPlayer board P1
  let stone_id ← getNextStoneId board
  let invalid := if team = 1 then P1_OUT_OF_PLAY else P2_OUT_OF_PLAY
  Except.ok (writeData board stone_id invalid)

/-- One abstract `space.step(dt)`: the step's wall-collision events, processed
in order by the registered callback (an index no longer naming a live stone is
skipped). -/
def stepEvents (sp : SpaceState) (events : List Nat) : SpaceState :=
  events.foldl (fun s idx =>
    match s.stones.get? idx with
    | some st => (wallRemoveStone s st).1
    | none => s) sp

/-- `Simulation.run`: step while stones move; on a 5-rock violation restore
the pre-shot board, call `addShooterAsInvalid` (whose returned board the
source discards), clear the flag and stop — the only path that discards a
trajectory.  Trace exhaustion models both state-keeping exits (rest, and the
60-second cap). -/
def runLoop (sim : Simulation) (trace : List (List Nat)) : Except String Simulation :=
  match trace with
  | [] => Except.ok sim
  | ev :: rest =>
    let sp := stepEvents sim.space ev
    if sp.five_rock_rule_violation then do
      let sim ← setupBoard { sim with space := sp } sim.board_before_action
      let _ ← addShooterAsInvalid sim
      Except.ok { sim with space := { sim.space with five_rock_rule_violation := false } }
    else runLoop { sim with space := sp } rest

/-- `CurlingGame.getNextState(board, player, action, use_cache=False)`
(game.py lines 62-78; the memoised branch wraps this same computation on the
canonicalised board): rebuild the space from the tensor, check the
pre-shot thrown count, inject the shot, run, assert the thrown count grew by
exactly one, re-encode, and cross-check the next player. -/
def getNextState (sim : Simulation) (board : Board) (player : Int) (action : Nat)
    (trace : List (List Nat)) : Except String (Board × Int) := do
  let sim ← setupBoard sim board
  let before := sim.space.thrownStonesCount
  if 16 ≤ before then Except.error "assert totalThrownStones before lt 16 failed"
  else do
    let sim ← setupAction sim player action
    let sim ← runLoop sim trace
    if before + 1 ≠ sim.space.thrownStonesCount then
      Except.error "Thrown stone count didnt increase correctly."
    else
      let next_board := getBoard sim.space
      let next_player := -player
      if sim.space.thrownStonesCount < 16 then
        match getNextPlayer next_board next_player with
        | Except.error e => Except.error e
        | Except.ok np_check =>
          if next_player ≠ np_check then Except.error "Next player check failed."
          else Except.ok (next_board, next_player)
      else Except.ok (next_board, next_player)

/-- A fresh space (`Simulation.__init__`): no stones, zero counters, no
violation, unknown shooter. -/
def space0 : SpaceState := ⟨[], 0, 0, false, UNKNOWN_COLOR⟩

/-- A fresh simulation: `__init__` calls `resetBoard` and snapshots
`getBoard()`. -/
def sim0 : Simulation := ⟨space0, getBoard space0⟩

/-- Concrete pre-shot board for the C1/C2 rollback scenario: exactly one
thrown, in-play team-2 stone, at grid cell (10, 2) — a guard position — with
every other stone unthrown. -/
def b0 : Board :=
  { grid := fun x y => if x.val = 10 ∧ y.val = 2 then P2 else 0
    data := fun i => if i.val = 8 then EMPTY
      else if i.val < 8 then P1_NOT_THROWN else P2_NOT_THROWN }

/-- The decoded position of grid cell (10, 2) (`boardToReal` on the argwhere
indices, which numpy yields as integers). -/
def xy102 : ℚ × ℚ := boardToReal ((10 : Nat) : ℚ) ((2 : Nat) : ℚ)

/-- The stone `setupBoard` re-creates from `b0`: team 2, at the decoded cell
position, guard flag from `updateGuardValue`. -/
def st1 : Stone := ⟨0, P2_COLOR, (xy102.1, xy102.2), isGuardPos (xy102.1, xy102.2), false⟩

/-- The space after `setupBoard(b0)` on a fresh simulation. -/
def sp1 : SpaceState := ⟨[st1], 0, 0, false, UNKNOWN_COLOR⟩

/-- The simulation after `setupBoard(b0)`. -/
def sim1 : Simulation := ⟨sp1, getBoard space0⟩

/-- The shooter stone injected by `setupAction(player 1, action 0)` at the
throw line (0, 0). -/
def shooterSt : Stone := ⟨0, P1_COLOR, ((0 : ℚ), (0 : ℚ)), isGuardPos ((0 : ℚ), (0 : ℚ)), true⟩

/-- The space after `setupAction`: guard stone plus shooter, team-1 shooting. -/
def sp2 : SpaceState := ⟨[st1, shooterSt], 0, 0, false, P1_COLOR⟩

/-- The simulation after `setupAction` (pre-shot board snapshotted). -/
def sim2 : Simulation := ⟨sp2, getBoard sp1⟩

/-- The space after the 5-rock rollback: the pre-shot stone set restored, the
violation flag cleared — and no trace of the shooter anywhere. -/
def sp5 : SpaceState := ⟨[st1], 0, 0, false, P1_COLOR⟩

/-- The simulation returned by `run` on the rollback path. -/
def sim5 : Simulation := ⟨sp5, b0⟩

/- ### End-of-end scoring (CurlingGame.getGameEnded, game.py)

`getGameEnded` reads its board through `board.py` helpers (`thrownStones`,
the `c.BOARD_SCORING` row written by `update_distance_and_score`) that are
not under src/.  That game-shell variant keeps per-stone rows indexed by
`c.BOARD_X / BOARD_Y / BOARD_THROWN / BOARD_IN_PLAY / BOARD_SCORING` over 16
stone columns (0-7 team 1, 8-15 team 2; see `boardFromSchema`), modelled here
as a structure of rows. -/

/-- Modelled from the spec: `c.THROWN`, the `BOARD_THROWN` marker set by
`boardFromSchema`. -/
def THROWN : Int := 1

/-- Modelled from the spec: `c.NOT_THROWN` of the stone-column variant (the
same constant serves both teams in `_permuate_symmetries`). -/
def NOT_THROWN : Int := 0

/-- Modelled from the spec: `c.IN_PLAY` of the `BOARD_IN_PLAY` row. -/
def IN_PLAY : Int := 1

/-- Modelled from the spec: `c.OUT_OF_PLAY` of the `BOARD_IN_PLAY` row. -/
def OUT_OF_PLAY : Int := 0

/-- The stone-column board variant used by `CurlingGame.getGameEnded`. -/
structure StoneBoard where
  x : Fin 16 → ℚ
  y : Fin 16 → ℚ
  thrown : Fin 16 → Int
  inPlay : Fin 16 → Int
  scoring : Fin 16 → ℚ

/-- `_TIED_SCORE` (game.py): the tiny non-zero draw sentinel. -/
def TIED_SCORE : ℚ := 0.00001

/-- The team owning stone column `i`: columns 0-7 are team 1, 8-15 team 2. -/
def stoneTeam (i : Fin 16) : Int := if i.val < 8 then P1 else P2

/-- The column of the same stone after relabelling the teams. -/
def swapTeamCol (i : Fin 16) : Fin 16 :=
  if h : i.val < 8 then ⟨i.val + 8, by omega⟩
  else ⟨i.val - 8, by have := i.isLt; omega⟩

/-- Modelled from the spec: `utils.getCanonicalForm` (not under src/) on the
stone-column variant; the spec 4.6 team relabelling exchanges the two team
blocks of columns (these rows hold no signed team markers to negate). -/
def canonicalSB (b : StoneBoard) (player : Int) : StoneBoard :=
  if player = P2 then
    { x := fun i => b.x (swapTeamCol i), y := fun i => b.y (swapTeamCol i)
      thrown := fun i => b.thrown (swapTeamCol i), inPlay := fun i => b.inPlay (swapTeamCol i)
      scoring := fun i => b.scoring (swapTeamCol i) }
  else b

/-- Modelled from the spec: `board.thrownStones` on this variant counts the
columns marked thrown. -/
def thrownStonesSB (b : StoneBoard) : Nat :=
  (List.finRange 16).countP fun i => b.thrown i == THROWN

/-- Squared distance of stone `i` from the house centre (the pin on the tee
line); ranking by distance equals ranking by squared distance. -/
def distSqSB (b : StoneBoard) (i : Fin 16) : ℚ :=
  b.x i ^ 2 + (b.y i - teeLineY) ^ 2

/-- Squared house radius (`dist(feet=6) + STONE_RADIUS`, as in
`updateGuardValue`). -/
def houseRadiusSq : ℚ := (dist' 0 6 0 + STONE_RADIUS) ^ 2

/-- Stone `i` lies in the scoring house: thrown, in play, within the house
radius of the centre. -/
def inHouseSB (b : StoneBoard) (i : Fin 16) : Bool :=
  decide (b.thrown i = THROWN ∧ b.inPlay i = IN_PLAY ∧ distSqSB b i < houseRadiusSq)

/-- Modelled from the spec (4.8): "rank in-house stones by distance to
center" — the in-house columns sorted by distance (stable; ties by column
order). -/
def rankedSB (b : StoneBoard) : List (Fin 16) :=
  ((List.finRange 16).filter (inHouseSB b)).mergeSort
    (fun i j => decide (distSqSB b i ≤ distSqSB b j))

/-- Modelled from the spec (4.8): "count a contiguous run of nearest stones
belonging to the same team (the run breaks at the first stone of the opposing
team)" — the maximal prefix of the ranking on the nearest stone's team. -/
def scoringRun (b : StoneBoard) : List (Fin 16) :=
  match rankedSB b with
  | [] => []
  | i :: rest => (i :: rest).takeWhile fun j => stoneTeam j == stoneTeam i

/-- The team holding the run (0 when no stone is in the house). -/
def runTeamSB (b : StoneBoard) : Int :=
  match rankedSB b with
  | [] => 0
  | i :: _ => stoneTeam i

/-- Modelled from the spec: the `BOARD_SCORING` row written by
`board.update_distance_and_score` (absent board.py): a stone scores 1 exactly
when it belongs to the contiguous nearest run, 0 otherwise, so that the
per-team sums taken by `getGameEnded` count the run. -/
def specScoring (b : StoneBoard) : Fin 16 → ℚ :=
  fun i => if i ∈ scoringRun b then 1 else 0

/-- `np.sum(board[c.BOARD_SCORING][lo:hi])`. -/
def scoreSum (b : StoneBoard) (lo hi : Nat) : ℚ :=
  (((List.finRange 16).filter fun i => decide (lo ≤ i.val ∧ i.val < hi)).map b.scoring).sum

/-- `CurlingGame.getGameEnded(board, player)`: canonicalise, return 0 while
fewer than 16 stones are thrown, else compare the two teams' scoring sums:
equal gives the tied sentinel, otherwise the winner's sum with the canonical
player's sign. -/
def getGameEnded (b : StoneBoard) (player : Int) : ℚ :=
  let board := canonicalSB b player
  let thrown_stones := thrownStonesSB board
  if thrown_stones < 16 then 0
  else
    let p1_score := scoreSum board 0 8
    let p2_score := scoreSum board 8 16
    if p1_score = p2_score then TIED_SCORE
    else if p1_score > p2_score then p1_score
    else -1 * p2_score

/-- Witness board for the scoring claims: every stone thrown, only stone 0
still in play, sitting in the house in front of the pin (stage one, scoring
row filled below). -/
def wb0 : StoneBoard :=
  { x := fun _ => 0, y := fun _ => 1500, thrown := fun _ => THROWN
    inPlay := fun i => if i.val = 0 then IN_PLAY else OUT_OF_PLAY
    scoring := fun _ => 0 }

/-- The witness board with its scoring row as `update_distance_and_score`
would write it. -/
def wb : StoneBoard := { wb0 with scoring := specScoring wb0 }

/- ### Stone dynamics hook (utils.getCurlingVelocity, utils.sqGauss)

The curl computation mixes `exp`, square roots and vector rotation, so this
section models Python floats as real numbers. -/

noncomputable section

/-- `pymunk.Vec2d.length`. -/
def vlen (v : ℝ × ℝ) : ℝ := Real.sqrt (v.1 ^ 2 + v.2 ^ 2)

/-- `pymunk.Vec2d.normalized()`: the unit vector, or the zero vector when the
length is zero. -/
def vnormalized (v : ℝ × ℝ) : ℝ × ℝ :=
  if vlen v = 0 then (0, 0) else (v.1 / vlen v, v.2 / vlen v)

/-- Scalar multiplication of a vector (`Vec2d.__mul__`). -/
def vscale (c : ℝ) (v : ℝ × ℝ) : ℝ × ℝ := (v.1 * c, v.2 * c)

/-- `pymunk.Vec2d.rotate_degrees(d)` (pymunk 5 rotates the vector in place;
the source returns the rotated vector). -/
def rotate_degrees (v : ℝ × ℝ) (d : ℝ) : ℝ × ℝ :=
  (v.1 * Real.cos (d * Real.pi / 180) - v.2 * Real.sin (d * Real.pi / 180),
   v.1 * Real.sin (d * Real.pi / 180) + v.2 * Real.cos (d * Real.pi / 180))

/-- `utils.sqGauss(x, m, o, em, eo)`: the Gaussian-shaped curl profile. -/
def sqGauss (x m o em eo : ℝ) : ℝ := (x * m + o) * Real.exp (-(x ^ 2 * em + eo))

/-- `utils.getCurlingVelocity(body)`: the lateral curl velocity computed from
the body's velocity and angular velocity each integration step. -/
def getCurlingVelocity (v : ℝ × ℝ) (angular_velocity : ℝ) : ℝ × ℝ :=
  let speed := vlen v / 12 / 6
  let curlFromSpeed := sqGauss speed 0.008 0 0.2 1.5
  let curl_effect : ℝ := if |angular_velocity| < 0.01 then 0 else 1
  let direction : ℝ := if angular_velocity < 0 then 90 else -90
  let curlVector := vscale (curlFromSpeed * curl_effect) (vnormalized v)
  rotate_degrees curlVector direction

/-- Euclidean inner product of two plane vectors. -/
def dotp (a b : ℝ × ℝ) : ℝ := a.1 * b.1 + a.2 * b.2

/-- Plane cross product; its sign gives the rotation orientation from `a`
to `b`. -/
def crossp (a b : ℝ × ℝ) : ℝ := a.1 * b.2 - a.2 * b.1

end

/-- The board-grid cell of a stone, as natural indices (the coordinates
`np.argwhere` reports for its marker). -/
def cellNat (st : Stone) : Nat × Nat :=
  ((realToBoard st.pos.1 st.pos.2).1.toNat, (realToBoard st.pos.1 st.pos.2).2.toNat)


/-- The stone `Simulation.addStone(color, x, y)` constructs before appending it
(id assigned, guard flag set from the creation position). -/
def newStone (sid : Nat) (color : Int) (x y : ℚ) : Stone :=
  Stone.updateGuardValue
    { id := sid, color := color, pos := (x, y), is_guard := false, is_shooter := false }


/-- A concrete team-1 stone sitting exactly on board cell (5, 3). -/
def ws1 : Stone := ⟨0, P1_COLOR, boardToReal (5 : ℚ) (3 : ℚ), false, false⟩

/-- A concrete team-2 stone sitting exactly on board cell (10, 2). -/
def ws2 : Stone := ⟨1, P2_COLOR, boardToReal (10 : ℚ) (2 : ℚ), false, false⟩

/-- A concrete engine state: the two stones above, one team-1 stone and two
team-2 stones already removed, team 1 shooting. -/
def sw : SpaceState := ⟨[ws1, ws2], 1, 2, false, P1_COLOR⟩

/- ### Theorems: claim C7 -/

theorem pyInt_sub_lt (q : ℚ) : |q - (pyInt q : ℚ)| < 1 := by
  rw [abs_sub_lt_iff]
  unfold pyInt
  split
  · constructor
    · have h := Int.le_ceil q
      linarith
    · have h := Int.ceil_lt_add_one q
      linarith
  · constructor
    · have h := Int.sub_one_lt_floor q
      linarith
    · have h := Int.floor_le q
      linarith

theorem pyInt_intCast (n : Int) : pyInt (n : ℚ) = n := by
  unfold pyInt
  split <;> simp

theorem X_SCALE_pos : 0 < X_SCALE := by
  unfold X_SCALE ICE_WIDTH STONE_RADIUS STONE_RADIUS_IN dist'
  norm_num

theorem Y_SCALE_pos : 0 < Y_SCALE := by
  unfold Y_SCALE BACKLINE_ELIM BACKLINE BACKLINE_BUFFER ICE_LENGTH STONE_RADIUS
    STONE_RADIUS_IN dist'
  norm_num

theorem BOARD_RESOLUTION_pos : 0 < BOARD_RESOLUTION := by
  unfold BOARD_RESOLUTION; norm_num

/-- The x component of the real-to-board-to-real round trip lands strictly within
one grid cell of the input. -/
theorem roundTrip_x_lt_cell (x y : ℚ) :
    |x - (boardToReal ((realToBoard x y).1 : ℚ) ((realToBoard x y).2 : ℚ)).1| < cellX := by
  unfold boardToReal realToBoard cellX
  simp only
  set t := (x + ICE_WIDTH / 2 - STONE_RADIUS) / X_SCALE * BOARD_RESOLUTION - ADJUSTER with ht
  have hS : X_SCALE ≠ 0 := ne_of_gt X_SCALE_pos
  have hR : BOARD_RESOLUTION ≠ 0 := ne_of_gt BOARD_RESOLUTION_pos
  have hx : x = (t + ADJUSTER) / BOARD_RESOLUTION * X_SCALE + STONE_RADIUS - ICE_WIDTH / 2 := by
    rw [ht]
    field_simp
    ring
  have hkey : x - ((((pyInt t : ℚ)) + ADJUSTER) / BOARD_RESOLUTION * X_SCALE
      + STONE_RADIUS - ICE_WIDTH / 2) = (t - (pyInt t : ℚ)) * (X_SCALE / BOARD_RESOLUTION) := by
    rw [hx]
    field_simp
    ring
  rw [hkey, abs_mul]
  have hpos : 0 < X_SCALE / BOARD_RESOLUTION := div_pos X_SCALE_pos BOARD_RESOLUTION_pos
  have habs : |X_SCALE / BOARD_RESOLUTION| = X_SCALE / BOARD_RESOLUTION := abs_of_pos hpos
  rw [habs]
  have hlt : |t - (pyInt t : ℚ)| < 1 := pyInt_sub_lt t
  calc |t - (pyInt t : ℚ)| * (X_SCALE / BOARD_RESOLUTION)
      < 1 * (X_SCALE / BOARD_RESOLUTION) := by
        exact mul_lt_mul_of_pos_right hlt hpos
    _ = X_SCALE / BOARD_RESOLUTION := one_mul _

/-- The y component of the real-to-board-to-real round trip lands strictly within
one grid cell of the input. -/
theorem roundTrip_y_lt_cell (x y : ℚ) :
    |y - (boardToReal ((realToBoard x y).1 : ℚ) ((realToBoard x y).2 : ℚ)).2| < cellY := by
  unfold boardToReal realToBoard cellY
  simp only
  set t := (y - HOG_LINE - STONE_RADIUS) / Y_SCALE * BOARD_RESOLUTION - ADJUSTER with ht
  have hS : Y_SCALE ≠ 0 := ne_of_gt Y_SCALE_pos
  have hR : BOARD_RESOLUTION ≠ 0 := ne_of_gt BOARD_RESOLUTION_pos
  have hy : y = (t + ADJUSTER) / BOARD_RESOLUTION * Y_SCALE + STONE_RADIUS + HOG_LINE := by
    rw [ht]
    field_simp
    ring
  have hkey : y - ((((pyInt t : ℚ)) + ADJUSTER) / BOARD_RESOLUTION * Y_SCALE
      + STONE_RADIUS + HOG_LINE) = (t - (pyInt t : ℚ)) * (Y_SCALE / BOARD_RESOLUTION) := by
    rw [hy]
    field_simp
    ring
  rw [hkey, abs_mul]
  have hpos : 0 < Y_SCALE / BOARD_RESOLUTION := div_pos Y_SCALE_pos BOARD_RESOLUTION_pos
  rw [abs_of_pos hpos]
  have hlt : |t - (pyInt t : ℚ)| < 1 := pyInt_sub_lt t
  calc |t - (pyInt t : ℚ)| * (Y_SCALE / BOARD_RESOLUTION)
      < 1 * (Y_SCALE / BOARD_RESOLUTION) := mul_lt_mul_of_pos_right hlt hpos
    _ = Y_SCALE / BOARD_RESOLUTION := one_mul _

/-- Board-to-real-to-board is exact on integer grid indices. -/
theorem boardRoundTrip_exact (bx by' : Int) :
    realToBoard (boardToReal (bx : ℚ) (by' : ℚ)).1 (boardToReal (bx : ℚ) (by' : ℚ)).2
      = (bx, by') := by
  unfold realToBoard boardToReal
  simp only
  have hS : X_SCALE ≠ 0 := ne_of_gt X_SCALE_pos
  have hSY : Y_SCALE ≠ 0 := ne_of_gt Y_SCALE_pos
  have hR : BOARD_RESOLUTION ≠ 0 := ne_of_gt BOARD_RESOLUTION_pos
  have hx : ((bx : ℚ) + ADJUSTER) / BOARD_RESOLUTION * X_SCALE + STONE_RADIUS - ICE_WIDTH / 2
      + ICE_WIDTH / 2 - STONE_RADIUS = ((bx : ℚ) + ADJUSTER) / BOARD_RESOLUTION * X_SCALE := by
    ring
  have hx2 : (((bx : ℚ) + ADJUSTER) / BOARD_RESOLUTION * X_SCALE) / X_SCALE * BOARD_RESOLUTION
      - ADJUSTER = (bx : ℚ) := by
    field_simp
    ring
  have hy : ((by' : ℚ) + ADJUSTER) / BOARD_RESOLUTION * Y_SCALE + STONE_RADIUS + HOG_LINE
      - HOG_LINE - STONE_RADIUS = ((by' : ℚ) + ADJUSTER) / BOARD_RESOLUTION * Y_SCALE := by
    ring
  have hy2 : (((by' : ℚ) + ADJUSTER) / BOARD_RESOLUTION * Y_SCALE) / Y_SCALE * BOARD_RESOLUTION
      - ADJUSTER = (by' : ℚ) := by
    field_simp
    ring
  rw [hx, hx2, hy, hy2, pyInt_intCast, pyInt_intCast]

/-- C7 (amended): for every position inside the playing surface the
real-to-board-to-real round trip lands strictly within one grid cell per axis,
and board-to-real-to-board is exact on every in-range integer grid cell.
(The spec's stronger half-a-grid-cell form is refuted by `C7_counterexample`:
`realToBoard` truncates `raw - ADJUSTER`, so the representative of a cell sits
at the cell's edge, not its centre.) -/
theorem C7_coordinate_round_trip (x y : ℚ) (bx by' : Int)
    (hin : inSurface x y) (hrange : inGridRange bx by') :
    |x - (boardToReal ((realToBoard x y).1 : ℚ) ((realToBoard x y).2 : ℚ)).1| < cellX ∧
    |y - (boardToReal ((realToBoard x y).1 : ℚ) ((realToBoard x y).2 : ℚ)).2| < cellY ∧
    realToBoard (boardToReal (bx : ℚ) (by' : ℚ)).1 (boardToReal (bx : ℚ) (by' : ℚ)).2
      = (bx, by') :=
  ⟨roundTrip_x_lt_cell x y, roundTrip_y_lt_cell x y, boardRoundTrip_exact bx by'⟩

/-- The board width literal agrees with the source formula
`int(ICE_WIDTH * c.BOARD_RESOLUTION)`. -/
theorem BOARD_WIDTH_src : (pyInt (ICE_WIDTH * BOARD_RESOLUTION)).toNat = BOARD_WIDTH := by
  norm_num [BOARD_WIDTH, pyInt, ICE_WIDTH, BOARD_RESOLUTION, dist']
  decide

/-- The board height literal agrees with the source formula
`int(BOX_LENGTH * c.BOARD_RESOLUTION)`. -/
theorem BOARD_HEIGHT_src : (pyInt (BOX_LENGTH * BOARD_RESOLUTION)).toNat = BOARD_HEIGHT := by
  norm_num [BOARD_HEIGHT, pyInt, BOX_LENGTH, BOARD_RESOLUTION, dist']
  decide

/-- C7 witness: a concrete in-surface point and in-range cell for which the
round-trip bounds of `C7_coordinate_round_trip` hold. -/
theorem C7_coordinate_round_trip_witness :
    inSurface 0 1300 ∧ inGridRange 3 5 ∧
    (|(0 : ℚ) - (boardToReal ((realToBoard 0 1300).1 : ℚ) ((realToBoard 0 1300).2 : ℚ)).1| < cellX ∧
     |(1300 : ℚ) - (boardToReal ((realToBoard 0 1300).1 : ℚ) ((realToBoard 0 1300).2 : ℚ)).2| < cellY ∧
     realToBoard (boardToReal ((3 : Int) : ℚ) ((5 : Int) : ℚ)).1
       (boardToReal ((3 : Int) : ℚ) ((5 : Int) : ℚ)).2 = ((3 : Int), (5 : Int))) :=
  ⟨by norm_num [inSurface, ICE_WIDTH, ICE_LENGTH, dist'],
   by norm_num [inGridRange, BOARD_WIDTH, BOARD_HEIGHT],
   C7_coordinate_round_trip 0 1300 3 5
     (by norm_num [inSurface, ICE_WIDTH, ICE_LENGTH, dist'])
     (by norm_num [inGridRange, BOARD_WIDTH, BOARD_HEIGHT])⟩

/-- C7 counterexample: the point x = -33917/500 (= -67.834 inches, inside the
playing surface; its raw board x-coordinate is 1.4 cells) round-trips with an
x-error of 0.9 of a grid cell, which exceeds half a grid cell — refuting the
claim's "within half a grid cell" form.  (The failure does not depend on the
modelled constants: by the algebra in `roundTrip_x_lt_cell` the error equals
the fractional part of the truncated raw coordinate times one cell, which for
any scale and resolution can reach any value below one cell.) -/
theorem C7_counterexample :
    inSurface (-33917/500) 1300 ∧
    cellX / 2 < |(-33917/500 : ℚ) -
      (boardToReal ((realToBoard (-33917/500) 1300).1 : ℚ)
        ((realToBoard (-33917/500) 1300).2 : ℚ)).1| := by
  constructor
  · norm_num [inSurface, ICE_WIDTH, ICE_LENGTH, dist']
  · norm_num [realToBoard, boardToReal, pyInt, cellX, ICE_WIDTH, ICE_LENGTH, dist',
      STONE_RADIUS, STONE_RADIUS_IN, X_SCALE, Y_SCALE, BOARD_RESOLUTION, ADJUSTER,
      HOG_LINE, BOX_LENGTH, BACKLINE_ELIM, BACKLINE, BACKLINE_BUFFER]
    rw [show |(23481/3500 : ℚ)| = 23481/3500 from abs_of_pos (by norm_num)]
    norm_num


/- ### Theorems: claims C5 and C6 -/

/-- C6: canonicalising twice with the second player restores the original
tensor exactly (the transform negates every team marker and metadata sign and
is an involution), and canonicalising with the first player is the identity. -/
theorem C6_canonical_involution (b : Board) :
    getCanonicalForm (getCanonicalForm b P2) P2 = b ∧ getCanonicalForm b P1 = b := by
  constructor
  · cases b with
    | mk g d => simp [getCanonicalForm]
  · simp [getCanonicalForm, P1, P2]

/-- C5: on a non-terminal board whose canonical side to move checks out, the
valid-move mask marks an action invalid exactly when its decoded handle and
broom are both strictly positive or both strictly negative, and the mask is
never all-false (the code raises instead of returning an empty mask, and the
returned mask provably has a valid entry). -/
theorem C5_valid_moves (board : Board) (player : Int)
    (hthrown : thrownStones (getCanonicalForm board player) < 16)
    (hturn : getNextPlayer (getCanonicalForm board player) 1 = Except.ok 1) :
    getValidMoves board player =
      Except.ok (ACTION_LIST.map fun hwb => if hwb.1 * hwb.2.2 > 0 then (0 : Int) else 1) ∧
    (ACTION_LIST.map fun hwb => if hwb.1 * hwb.2.2 > 0 then (0 : Int) else 1).sum ≠ 0 ∧
    ∀ a, a < ACTION_LIST.length →
      (((ACTION_LIST.map fun hwb => if hwb.1 * hwb.2.2 > 0 then (0 : Int) else 1).getD a 1 = 0)
        ↔ (ACTION_LIST.getD a (0, 0, 0)).1 * (ACTION_LIST.getD a (0, 0, 0)).2.2 > 0) := by
  refine ⟨?_, by decide, by decide⟩
  unfold getValidMoves
  rw [if_neg (by omega), hturn]
  simp only [reduceIte]
  have hmask : ((List.range getActionSize).map fun action =>
      match decodeAction action with
      | some hwb => if hwb.1 * hwb.2.2 > 0 then (0 : Int) else 1
      | none => 1) =
      ACTION_LIST.map fun hwb => if hwb.1 * hwb.2.2 > 0 then (0 : Int) else 1 := by
    decide
  rw [hmask]
  rw [if_neg (by decide)]

/-- C5 witness: the initial board with player 1 to move satisfies both
hypotheses, and the mask facts follow from `C5_valid_moves` there. -/
theorem C5_valid_moves_witness :
    thrownStones (getCanonicalForm getInitBoard 1) < 16 ∧
    getNextPlayer (getCanonicalForm getInitBoard 1) 1 = Except.ok 1 ∧
    (getValidMoves getInitBoard 1 =
      Except.ok (ACTION_LIST.map fun hwb => if hwb.1 * hwb.2.2 > 0 then (0 : Int) else 1) ∧
    (ACTION_LIST.map fun hwb => if hwb.1 * hwb.2.2 > 0 then (0 : Int) else 1).sum ≠ 0 ∧
    ∀ a, a < ACTION_LIST.length →
      (((ACTION_LIST.map fun hwb => if hwb.1 * hwb.2.2 > 0 then (0 : Int) else 1).getD a 1 = 0)
        ↔ (ACTION_LIST.getD a (0, 0, 0)).1 * (ACTION_LIST.getD a (0, 0, 0)).2.2 > 0)) :=
  ⟨by decide, by decide, C5_valid_moves getInitBoard 1 (by decide) (by decide)⟩

/- ### Theorems: claim C4 -/

/-- C4: a 5-rock violation is flagged for an exiting stone iff the end's
thrown-stone total is at most five, the stone's team differs from the shooting
team, and the stone is a guard (before the tee line, outside the house); when
flagged the stone stays and the counters are untouched, otherwise the stone is
removed and exactly its team's removed counter increments. -/
theorem C4_five_rock_rule (sp : SpaceState) (st : Stone)
    (hguard : st.is_guard = isGuardPos st.pos) :
    (five_rock_rule st sp = true ↔
      (sp.thrownStonesCount ≤ 5 ∧ st.color ≠ sp.shooter_color ∧
       st.pos.2 < teeLineY ∧
       (dist' 0 6 0 + STONE_RADIUS) ^ 2 < st.pos.1 ^ 2 + (st.pos.2 - teeLineY) ^ 2)) ∧
    ((wallRemoveStone sp st).2 = false ↔ five_rock_rule st sp = true) ∧
    (five_rock_rule st sp = true →
      (wallRemoveStone sp st).1.stones = sp.stones ∧
      (wallRemoveStone sp st).1.p1_removed_stones = sp.p1_removed_stones ∧
      (wallRemoveStone sp st).1.p2_removed_stones = sp.p2_removed_stones ∧
      (wallRemoveStone sp st).1.five_rock_rule_violation = true) ∧
    (five_rock_rule st sp = false →
      (wallRemoveStone sp st).1.stones = sp.stones.erase st ∧
      (wallRemoveStone sp st).1.p1_removed_stones
        = sp.p1_removed_stones + (if st.getTeamId = P1 then 1 else 0) ∧
      (wallRemoveStone sp st).1.p2_removed_stones
        = sp.p2_removed_stones + (if st.getTeamId = P1 then 0 else 1)) := by
  refine ⟨?_, ?_, ?_, ?_⟩
  · unfold five_rock_rule
    rw [hguard]
    split_ifs with h1 h2 h3 <;>
      simp_all [isGuardPos, teeLineY]
  · unfold wallRemoveStone
    split_ifs with h <;> simp [h]
  · intro h
    unfold wallRemoveStone
    rw [if_pos h]
    exact ⟨rfl, rfl, rfl, rfl⟩
  · intro h
    unfold wallRemoveStone SpaceState.remove_stone
    rw [if_neg (by simp [h])]
    split_ifs with ht <;> simp

/-- C4 witness: for the concrete guard stone `stw` exiting while `spw` has
three stones thrown and team 1 shooting, the rule flags a violation, the
collision is rejected and the violation flag is set. -/
theorem C4_five_rock_rule_witness :
    stw.is_guard = isGuardPos stw.pos ∧
    five_rock_rule stw spw = true ∧
    (wallRemoveStone spw stw).2 = false ∧
    (wallRemoveStone spw stw).1.five_rock_rule_violation = true := by
  have hguard : stw.is_guard = isGuardPos stw.pos := by
    simp only [stw, isGuardPos]
    rw [eq_comm, decide_eq_true_eq]
    norm_num [teeLineY, STONE_RADIUS, STONE_RADIUS_IN, dist']
  have h := C4_five_rock_rule spw stw hguard
  have hrule : five_rock_rule stw spw = true := by
    refine h.1.mpr ⟨by decide, by decide, ?_, ?_⟩
    · norm_num [stw, teeLineY, STONE_RADIUS, STONE_RADIUS_IN, dist']
    · norm_num [stw, teeLineY, STONE_RADIUS, STONE_RADIUS_IN, dist']
  exact ⟨hguard, hrule, h.2.1.mpr hrule, ((h.2.2.1) hrule).2.2.2⟩

/- ### Theorems: claims C1 and C2 (the 5-rock rollback path)

The failing scenario: board `b0` has one thrown stone — a team-2 guard — and
team 1 shoots; the collision chain pushes the guard out at the wall, raising
the 5-rock violation.  The run restores the pre-shot board and calls
`addShooterAsInvalid`, but that method marks the shooter slot on a freshly
built local array which it discards, so the space after the run encodes to
exactly the pre-shot board: the thrown-stone count did not grow and the
`assert` in `getNextState` fails. -/

theorem except_bind_ok {e a b : Type} (x : a) (f : a → Except e b) :
    (Except.ok x >>= f : Except e b) = f x := rfl

theorem setup1 : setupBoard sim0 b0 = Except.ok sim1 := by rfl

theorem xy102_eval : xy102 = ((0 : ℚ), (126173/100 : ℚ)) := by
  norm_num [xy102, boardToReal, ICE_WIDTH, STONE_RADIUS, STONE_RADIUS_IN, dist',
    X_SCALE, Y_SCALE, BOARD_RESOLUTION, ADJUSTER, HOG_LINE, BOX_LENGTH, ICE_LENGTH,
    BACKLINE_ELIM, BACKLINE, BACKLINE_BUFFER]

theorem rtb_st1 : realToBoard st1.pos.1 st1.pos.2 = ((10 : Int), (2 : Int)) := by
  have h1 : st1.pos.1 = 0 := by
    show xy102.1 = 0
    rw [xy102_eval]
  have h2 : st1.pos.2 = 126173/100 := by
    show xy102.2 = 126173/100
    rw [xy102_eval]
  rw [h1, h2]
  norm_num [realToBoard, pyInt, ICE_WIDTH, STONE_RADIUS, STONE_RADIUS_IN, dist',
    X_SCALE, Y_SCALE, BOARD_RESOLUTION, ADJUSTER, HOG_LINE, BOX_LENGTH, ICE_LENGTH,
    BACKLINE_ELIM, BACKLINE, BACKLINE_BUFFER]

theorem guard_st1 : st1.is_guard = true := by
  show isGuardPos (xy102.1, xy102.2) = true
  rw [show (xy102.1, xy102.2) = ((0 : ℚ), (126173/100 : ℚ)) from by rw [xy102_eval]]
  simp only [isGuardPos, decide_eq_true_eq]
  norm_num [teeLineY, STONE_RADIUS, STONE_RADIUS_IN, dist']

/-- Re-encoding the decoded board gives back `b0` exactly (the grid index
round-trips, and the single in-play metadata slot is rebuilt in place). -/
theorem getBoard_sp1 : getBoard sp1 = b0 := by
  unfold getBoard sp1
  simp only [List.foldl_cons, List.foldl_nil]
  unfold getBoardStep
  rw [show realToBoard st1.pos.1 st1.pos.2 = ((10 : Int), (2 : Int)) from rtb_st1]
  decide

theorem setupAction_eval : setupAction sim1 1 0 = Except.ok sim2 := by rfl

theorem fiveRock_st1 : five_rock_rule st1 sp2 = true := by
  unfold five_rock_rule
  rw [guard_st1]
  rfl

theorem step_eval : stepEvents sp2 [0] = ⟨[st1, shooterSt], 0, 0, true, P1_COLOR⟩ := by
  show (wallRemoveStone sp2 st1).1 = _
  unfold wallRemoveStone
  rw [fiveRock_st1]
  rfl

theorem runLoop_eval : runLoop sim2 [[0]] = Except.ok sim5 := by
  have h1 : stepEvents sim2.space [0]
      = (⟨[st1, shooterSt], 0, 0, true, P1_COLOR⟩ : SpaceState) := step_eval
  have hbb : sim2.board_before_action = b0 := getBoard_sp1
  simp only [runLoop, h1, hbb]
  rfl

/-- C1 (the code deviates): on the 5-rock rollback exit path the thrown-stone
count does not increase — `addShooterAsInvalid` marks a discarded local array —
so `getNextState` dies on its own thrown-count assertion instead of returning
a board with one more thrown stone. -/
theorem C1_rollback_breaks_count : getNextState sim0 b0 1 0 [[0]]
    = Except.error "Thrown stone count didnt increase correctly." := by
  simp only [getNextState, setup1, setupAction_eval, runLoop_eval, except_bind_ok]
  rfl

/-- C2 (the code deviates): on the rollback path the returned space encodes to
exactly the pre-shot snapshot — the shooter slot still reads `NOT_THROWN`, not
`OUT_OF_PLAY`, and the thrown count is unchanged; the marked board that
`addShooterAsInvalid` builds does exist but is discarded by the source. -/
theorem C2_rollback_discards_marking :
    setupBoard sim0 b0 = Except.ok sim1 ∧
    setupAction sim1 1 0 = Except.ok sim2 ∧
    runLoop sim2 [[0]] = Except.ok sim5 ∧
    getBoard sim5.space = sim2.board_before_action ∧
    (getBoard sim5.space).data 0 = P1_NOT_THROWN ∧
    sim5.space.thrownStonesCount = sim1.space.thrownStonesCount ∧
    addShooterAsInvalid sim5 = Except.ok (writeData b0 0 P1_OUT_OF_PLAY) ∧
    (writeData b0 0 P1_OUT_OF_PLAY).data 0 = P1_OUT_OF_PLAY := by
  have hb5 : getBoard sim5.space = b0 := getBoard_sp1
  refine ⟨setup1, setupAction_eval, runLoop_eval, ?_, ?_, rfl, ?_, by decide⟩
  · exact hb5.trans getBoard_sp1.symm
  · rw [hb5]
    decide
  · unfold addShooterAsInvalid
    rw [hb5]
    rfl

/- ### Theorems: claims C3 and C9 (end-of-end scoring) -/

theorem sum_ind_zero (L run : List (Fin 16)) (h : ∀ i ∈ L, i ∉ run) :
    (L.map fun i => if i ∈ run then (1:ℚ) else 0).sum = 0 := by
  induction L with
  | nil => simp
  | cons a L ih =>
    have ha : a ∉ run := h a (by simp)
    have hL : ∀ i ∈ L, i ∉ run := fun i hi => h i (by simp [hi])
    simp [ha, ih hL]

theorem sum_ind_count (L run : List (Fin 16)) (hL : L.Nodup) (hrun : run.Nodup)
    (hsub : ∀ i ∈ run, i ∈ L) :
    (L.map fun i => if i ∈ run then (1:ℚ) else 0).sum = run.length := by
  rw [← List.sum_toFinset _ hL]
  rw [Finset.sum_boole]
  have hfil : L.toFinset.filter (fun i => i ∈ run) = run.toFinset := by
    ext x
    simp only [Finset.mem_filter, List.mem_toFinset]
    constructor
    · rintro ⟨_, hx⟩
      exact hx
    · intro hx
      exact ⟨hsub x hx, hx⟩
  rw [hfil, List.toFinset_card_of_nodup hrun]

theorem scoreSum_nonneg (b : StoneBoard) (lo hi : Nat)
    (hs : b.scoring = specScoring b) : 0 ≤ scoreSum b lo hi := by
  unfold scoreSum
  rw [hs]
  apply List.sum_nonneg
  intro x hx
  rw [List.mem_map] at hx
  obtain ⟨i, -, rfl⟩ := hx
  unfold specScoring
  split <;> norm_num

/-- C3: with all 16 stones thrown, at least one stone in the house, and the
scoring row as `update_distance_and_score` writes it, `getGameEnded` returns
exactly the length of the contiguous nearest run of the canonical ranking,
signed by the team holding it (positive for the acting canonical player's
team). -/
theorem C3_game_ended_run (b : StoneBoard) (player : Int)
    (hthrown : thrownStonesSB (canonicalSB b player) = 16)
    (hscore : (canonicalSB b player).scoring = specScoring (canonicalSB b player))
    (hhouse : rankedSB (canonicalSB b player) ≠ []) :
    1 ≤ (scoringRun (canonicalSB b player)).length ∧
    (runTeamSB (canonicalSB b player) = P1 ∨ runTeamSB (canonicalSB b player) = P2) ∧
    getGameEnded b player
      = (runTeamSB (canonicalSB b player) : ℚ) * (scoringRun (canonicalSB b player)).length := by
  set cb := canonicalSB b player with hcb
  obtain ⟨i0, rest, hsorted⟩ : ∃ i0 rest, rankedSB cb = i0 :: rest := by
    cases h : rankedSB cb with
    | nil => exact absurd h hhouse
    | cons a l => exact ⟨a, l, rfl⟩
  have hrun : scoringRun cb = (i0 :: rest).takeWhile (fun j => stoneTeam j == stoneTeam i0) := by
    unfold scoringRun
    rw [hsorted]
  have hrun_cons : scoringRun cb
      = i0 :: rest.takeWhile (fun j => stoneTeam j == stoneTeam i0) := by
    rw [hrun, List.takeWhile_cons]
    simp
  have hlen : 1 ≤ (scoringRun cb).length := by
    rw [hrun_cons]
    simp
  have hteamrun : ∀ j ∈ scoringRun cb, stoneTeam j = stoneTeam i0 := by
    intro j hj
    rw [hrun] at hj
    have h2 := List.mem_takeWhile_imp hj
    simpa using h2
  have hnodupRanked : (rankedSB cb).Nodup := by
    unfold rankedSB
    exact ((List.mergeSort_perm _ _).nodup_iff).mpr ((List.nodup_finRange 16).filter _)
  have hnduprun : (scoringRun cb).Nodup := by
    rw [hrun]
    exact (List.takeWhile_sublist _).nodup (hsorted ▸ hnodupRanked)
  have hruntm : runTeamSB cb = stoneTeam i0 := by
    unfold runTeamSB
    rw [hsorted]
  have hteam01 : stoneTeam i0 = P1 ∨ stoneTeam i0 = P2 := by
    unfold stoneTeam
    split
    · exact Or.inl rfl
    · exact Or.inr rfl
  refine ⟨hlen, by rw [hruntm]; exact hteam01, ?_⟩
  have hge : getGameEnded b player =
      (if thrownStonesSB cb < 16 then 0
       else if scoreSum cb 0 8 = scoreSum cb 8 16 then TIED_SCORE
       else if scoreSum cb 0 8 > scoreSum cb 8 16 then scoreSum cb 0 8
       else -1 * scoreSum cb 8 16) := rfl
  rw [hge, hthrown]
  norm_num
  rcases hteam01 with h1 | h1
  · have hmem8 : ∀ j ∈ scoringRun cb, j.val < 8 := by
      intro j hj
      have ht := hteamrun j hj
      rw [h1] at ht
      unfold stoneTeam at ht
      by_contra hcon
      rw [if_neg hcon] at ht
      exact absurd ht (by decide)
    have hp1 : scoreSum cb 0 8 = (scoringRun cb).length := by
      unfold scoreSum
      rw [hscore]
      show ((List.filter _ (List.finRange 16)).map
        fun i => if i ∈ scoringRun cb then (1:ℚ) else 0).sum = _
      apply sum_ind_count
      · exact (List.nodup_finRange 16).filter _
      · exact hnduprun
      · intro j hj
        rw [List.mem_filter]
        refine ⟨List.mem_finRange j, ?_⟩
        simp [hmem8 j hj]
    have hp2 : scoreSum cb 8 16 = 0 := by
      unfold scoreSum
      rw [hscore]
      show ((List.filter _ (List.finRange 16)).map
        fun i => if i ∈ scoringRun cb then (1:ℚ) else 0).sum = _
      apply sum_ind_zero
      intro i hi
      rw [List.mem_filter] at hi
      intro hcon
      have := hmem8 i hcon
      have h8 := hi.2
      simp at h8
      omega
    rw [hp1, hp2, hruntm, h1]
    have hpos : (0:ℚ) < ((scoringRun cb).length : ℚ) := by
      exact_mod_cast hlen
    rw [if_neg (ne_of_gt hpos)]
    rw [if_pos hpos]
    norm_num [P1]
  · have hmem8 : ∀ j ∈ scoringRun cb, ¬ j.val < 8 := by
      intro j hj
      have ht := hteamrun j hj
      rw [h1] at ht
      unfold stoneTeam at ht
      intro hcon
      rw [if_pos hcon] at ht
      exact absurd ht (by decide)
    have hp1 : scoreSum cb 0 8 = 0 := by
      unfold scoreSum
      rw [hscore]
      show ((List.filter _ (List.finRange 16)).map
        fun i => if i ∈ scoringRun cb then (1:ℚ) else 0).sum = _
      apply sum_ind_zero
      intro i hi
      rw [List.mem_filter] at hi
      intro hcon
      have := hmem8 i hcon
      have h8 := hi.2
      simp at h8
      omega
    have hp2 : scoreSum cb 8 16 = (scoringRun cb).length := by
      unfold scoreSum
      rw [hscore]
      show ((List.filter _ (List.finRange 16)).map
        fun i => if i ∈ scoringRun cb then (1:ℚ) else 0).sum = _
      apply sum_ind_count
      · exact (List.nodup_finRange 16).filter _
      · exact hnduprun
      · intro j hj
        rw [List.mem_filter]
        refine ⟨List.mem_finRange j, ?_⟩
        have := hmem8 j hj
        have := j.isLt
        simp
        omega
    rw [hp1, hp2, hruntm, h1]
    have hpos : (0:ℚ) < ((scoringRun cb).length : ℚ) := by
      exact_mod_cast hlen
    rw [if_neg (ne_of_gt hpos).symm]
    rw [if_neg (not_lt.mpr hpos.le)]
    norm_num [P2]

/-- The witness board has all 16 stones thrown. -/
theorem wb_thrown16 : thrownStonesSB (canonicalSB wb 1) = 16 := by decide

/-- The witness board's scoring row is the spec scoring of itself. -/
theorem wb_scoring : (canonicalSB wb 1).scoring = specScoring (canonicalSB wb 1) := rfl

/-- Only stone 0 of the witness board is in the house. -/
theorem wb_filter : (List.finRange 16).filter (inHouseSB (canonicalSB wb 1)) = [0] := by
  have hone : inHouseSB (canonicalSB wb 1) 0 = true := by
    simp only [inHouseSB, decide_eq_true_eq]
    refine ⟨rfl, rfl, ?_⟩
    show (wb.x 0) ^ 2 + (wb.y 0 - teeLineY) ^ 2 < houseRadiusSq
    norm_num [wb, wb0, teeLineY, houseRadiusSq, STONE_RADIUS, STONE_RADIUS_IN, dist']
  have hfr : List.finRange 16
      = 0 :: [1, 2, 3, 4, 5, 6, 7, 8, 9, 10, 11, 12, 13, 14, 15] := by decide
  have htail : List.filter (inHouseSB (canonicalSB wb 1))
      [1, 2, 3, 4, 5, 6, 7, 8, 9, 10, 11, 12, 13, 14, 15] = [] := by decide
  rw [hfr, List.filter_cons, hone]
  simp only [if_true]
  rw [htail]

unseal List.merge List.mergeSort in
theorem wb_ranked : rankedSB (canonicalSB wb 1) = [0] := by
  unfold rankedSB
  rw [wb_filter]
  rfl

/-- C3 witness: the witness board satisfies all three hypotheses; by
`C3_game_ended_run` its end value is the signed run length, and concretely the
run is the single team-1 stone, so the value is 1. -/
theorem C3_game_ended_run_witness :
    thrownStonesSB (canonicalSB wb 1) = 16 ∧
    (canonicalSB wb 1).scoring = specScoring (canonicalSB wb 1) ∧
    rankedSB (canonicalSB wb 1) ≠ [] ∧
    (1 ≤ (scoringRun (canonicalSB wb 1)).length ∧
     (runTeamSB (canonicalSB wb 1) = P1 ∨ runTeamSB (canonicalSB wb 1) = P2) ∧
     getGameEnded wb 1
       = (runTeamSB (canonicalSB wb 1) : ℚ) * (scoringRun (canonicalSB wb 1)).length) ∧
    getGameEnded wb 1 = 1 := by
  have hne : rankedSB (canonicalSB wb 1) ≠ [] := by
    rw [wb_ranked]
    simp
  have hmain := C3_game_ended_run wb 1 wb_thrown16 wb_scoring hne
  refine ⟨wb_thrown16, wb_scoring, hne, hmain, ?_⟩
  have hrun : scoringRun (canonicalSB wb 1) = [0] := by
    unfold scoringRun
    rw [wb_ranked]
    rfl
  have hteam : runTeamSB (canonicalSB wb 1) = 1 := by
    unfold runTeamSB
    rw [wb_ranked]
    rfl
  rw [hmain.2.2, hteam, hrun]
  norm_num

/-- C9: with a well-formed scoring row, `getGameEnded` is exactly 0 iff fewer
than 16 stones are thrown, and a completed end with equal team scores returns
the fixed tiny non-zero sentinel. -/
theorem C9_draw_sentinel (b : StoneBoard) (player : Int)
    (hscore : (canonicalSB b player).scoring = specScoring (canonicalSB b player)) :
    (getGameEnded b player = 0 ↔ thrownStonesSB (canonicalSB b player) < 16) ∧
    (thrownStonesSB (canonicalSB b player) = 16 →
      scoreSum (canonicalSB b player) 0 8 = scoreSum (canonicalSB b player) 8 16 →
      getGameEnded b player = TIED_SCORE ∧ TIED_SCORE ≠ 0) := by
  set cb := canonicalSB b player with hcb
  have hge : getGameEnded b player =
      (if thrownStonesSB cb < 16 then 0
       else if scoreSum cb 0 8 = scoreSum cb 8 16 then TIED_SCORE
       else if scoreSum cb 0 8 > scoreSum cb 8 16 then scoreSum cb 0 8
       else -1 * scoreSum cb 8 16) := rfl
  have hp1 : 0 ≤ scoreSum cb 0 8 := scoreSum_nonneg cb 0 8 hscore
  have hp2 : 0 ≤ scoreSum cb 8 16 := scoreSum_nonneg cb 8 16 hscore
  constructor
  · constructor
    · intro h0
      by_contra hnl
      rw [hge, if_neg hnl] at h0
      split_ifs at h0 with heq hgt
      · exact absurd h0 (by norm_num [TIED_SCORE])
      · rw [h0] at hgt
        exact absurd hgt (not_lt.mpr hp2)
      · have hlt : scoreSum cb 0 8 < scoreSum cb 8 16 :=
          lt_of_le_of_ne (not_lt.mp hgt) heq
        have hz : scoreSum cb 8 16 = 0 := by linarith
        rw [hz] at hlt
        exact absurd hlt (not_lt.mpr hp1)
    · intro hlt
      rw [hge, if_pos hlt]
  · intro h16 heq
    rw [hge, if_neg (by omega), if_pos heq]
    exact ⟨rfl, by norm_num [TIED_SCORE]⟩

/-- C9 witness: the witness board's scoring row is well formed; by
`C9_draw_sentinel` the end value (here 16 thrown) is non-zero, and the draw
sentinel is non-zero. -/
theorem C9_draw_sentinel_witness :
    (canonicalSB wb 1).scoring = specScoring (canonicalSB wb 1) ∧
    ((getGameEnded wb 1 = 0 ↔ thrownStonesSB (canonicalSB wb 1) < 16) ∧
     (thrownStonesSB (canonicalSB wb 1) = 16 →
       scoreSum (canonicalSB wb 1) 0 8 = scoreSum (canonicalSB wb 1) 8 16 →
       getGameEnded wb 1 = TIED_SCORE ∧ TIED_SCORE ≠ 0)) ∧
    getGameEnded wb 1 ≠ 0 := by
  have hmain := C9_draw_sentinel wb 1 wb_scoring
  refine ⟨wb_scoring, hmain, ?_⟩
  intro h0
  have h16 := hmain.1.mp h0
  rw [wb_thrown16] at h16
  omega


/- ### Theorems: claim C10 (curl dynamics) -/

/-- C10: below the small-spin threshold (0.01) the curl velocity is exactly
the zero vector; at or above it, for a moving stone the curl's magnitude is
the Gaussian-shaped function of speed, its direction is perpendicular to the
velocity, and the perpendicular is taken clockwise or counter-clockwise
according to the sign of the angular velocity. -/
theorem C10_curl_suppression_and_direction (v : ℝ × ℝ) (ang : ℝ) (v2 : ℝ × ℝ) (ang2 : ℝ)
    (hlow : |ang| < 0.01) (hhigh : 0.01 ≤ |ang2|) (hv2 : v2 ≠ (0, 0)) :
    getCurlingVelocity v ang = (0, 0) ∧
    vlen (getCurlingVelocity v2 ang2) = sqGauss (vlen v2 / 12 / 6) 0.008 0 0.2 1.5 ∧
    dotp (getCurlingVelocity v2 ang2) v2 = 0 ∧
    (ang2 < 0 → 0 < crossp v2 (getCurlingVelocity v2 ang2)) ∧
    (0 ≤ ang2 → crossp v2 (getCurlingVelocity v2 ang2) < 0) := by
  have hzero : getCurlingVelocity v ang = (0, 0) := by
    unfold getCurlingVelocity
    rw [if_pos hlow]
    unfold vscale rotate_degrees
    simp [Prod.mk.injEq]
  have hLpos : 0 < vlen v2 := by
    unfold vlen
    apply Real.sqrt_pos.mpr
    by_contra hnp
    push_neg at hnp
    have h1 : v2.1 = 0 := by nlinarith [sq_nonneg v2.1, sq_nonneg v2.2]
    have h2 : v2.2 = 0 := by nlinarith [sq_nonneg v2.1, sq_nonneg v2.2]
    exact hv2 (Prod.ext h1 h2)
  have hLsq : vlen v2 ^ 2 = v2.1 ^ 2 + v2.2 ^ 2 :=
    Real.sq_sqrt (by positivity)
  set L := vlen v2 with hLdef
  set s := sqGauss (L / 12 / 6) 0.008 0 0.2 1.5 with hsdef
  have hspos : 0 < s := by
    rw [hsdef]
    unfold sqGauss
    have h0 : 0 < L / 12 / 6 * 0.008 + 0 := by positivity
    positivity
  have hnorm : vnormalized v2 = (v2.1 / L, v2.2 / L) := by
    unfold vnormalized
    rw [if_neg (ne_of_gt hLpos)]
  have hnl : ¬ |ang2| < 0.01 := not_lt.mpr hhigh
  rcases lt_or_ge ang2 0 with hdir | hdir
  · have hget : getCurlingVelocity v2 ang2 = (-(v2.2 / L * s), v2.1 / L * s) := by
      unfold getCurlingVelocity
      rw [if_neg hnl, if_pos hdir, hnorm]
      unfold vscale rotate_degrees
      have hc : Real.cos ((90:ℝ) * Real.pi / 180) = 0 := by
        rw [show (90:ℝ) * Real.pi / 180 = Real.pi / 2 by ring]
        exact Real.cos_pi_div_two
      have hsin : Real.sin ((90:ℝ) * Real.pi / 180) = 1 := by
        rw [show (90:ℝ) * Real.pi / 180 = Real.pi / 2 by ring]
        exact Real.sin_pi_div_two
      simp only [hc, hsin, Prod.mk.injEq]
      rw [← hLdef, ← hsdef]
      constructor <;> ring
    have hsum : (-(v2.2 / L * s)) ^ 2 + (v2.1 / L * s) ^ 2 = s ^ 2 := by
      have hLne : L ≠ 0 := ne_of_gt hLpos
      field_simp
      linear_combination s ^ 2 * hLsq.symm
    have hvl : vlen (getCurlingVelocity v2 ang2) = s := by
      rw [hget]
      unfold vlen
      simp only
      rw [hsum]
      exact Real.sqrt_sq hspos.le
    have hcross : crossp v2 (getCurlingVelocity v2 ang2) = s * L := by
      rw [hget]
      unfold crossp
      have hLne : L ≠ 0 := ne_of_gt hLpos
      rw [show v2.1 * (v2.1 / L * s) - v2.2 * -(v2.2 / L * s)
          = (v2.1 ^ 2 + v2.2 ^ 2) / L * s from by ring, ← hLsq]
      field_simp
      ring
    refine ⟨hzero, hvl, ?_, fun _ => ?_, fun hge => absurd hdir (not_lt.mpr hge)⟩
    · rw [hget]
      unfold dotp
      ring
    · rw [hcross]
      positivity
  · have hget : getCurlingVelocity v2 ang2 = (v2.2 / L * s, -(v2.1 / L * s)) := by
      unfold getCurlingVelocity
      rw [if_neg hnl, if_neg (not_lt.mpr hdir), hnorm]
      unfold vscale rotate_degrees
      have hc : Real.cos ((-90:ℝ) * Real.pi / 180) = 0 := by
        rw [show (-90:ℝ) * Real.pi / 180 = -(Real.pi / 2) by ring]
        rw [Real.cos_neg]
        exact Real.cos_pi_div_two
      have hsin : Real.sin ((-90:ℝ) * Real.pi / 180) = -1 := by
        rw [show (-90:ℝ) * Real.pi / 180 = -(Real.pi / 2) by ring]
        rw [Real.sin_neg, Real.sin_pi_div_two]
      simp only [hc, hsin, Prod.mk.injEq]
      rw [← hLdef, ← hsdef]
      constructor <;> ring
    have hsum : (v2.2 / L * s) ^ 2 + (-(v2.1 / L * s)) ^ 2 = s ^ 2 := by
      have hLne : L ≠ 0 := ne_of_gt hLpos
      field_simp
      linear_combination s ^ 2 * hLsq.symm
    have hvl : vlen (getCurlingVelocity v2 ang2) = s := by
      rw [hget]
      unfold vlen
      simp only
      rw [hsum]
      exact Real.sqrt_sq hspos.le
    have hcross : crossp v2 (getCurlingVelocity v2 ang2) = -(s * L) := by
      rw [hget]
      unfold crossp
      have hLne : L ≠ 0 := ne_of_gt hLpos
      rw [show v2.1 * -(v2.1 / L * s) - v2.2 * (v2.2 / L * s)
          = -((v2.1 ^ 2 + v2.2 ^ 2) / L * s) from by ring, ← hLsq]
      field_simp
      ring
    refine ⟨hzero, hvl, ?_, fun hlt => absurd hlt (not_lt.mpr hdir), fun _ => ?_⟩
    · rw [hget]
      unfold dotp
      ring
    · rw [hcross]
      have : 0 < s * L := by positivity
      linarith


/-- C10 witness: a slow spin (0.005) on any velocity gives zero curl, and a
unit spin on velocity (3, 4) gives a curl of the Gaussian magnitude,
perpendicular and clockwise. -/
theorem C10_curl_suppression_and_direction_witness :
    |(1/200 : ℝ)| < 0.01 ∧ (0.01 : ℝ) ≤ |(1 : ℝ)| ∧
    ((3 : ℝ), (4 : ℝ)) ≠ ((0 : ℝ), (0 : ℝ)) ∧
    (getCurlingVelocity ((3 : ℝ), (4 : ℝ)) (1/200) = (0, 0) ∧
     vlen (getCurlingVelocity ((3 : ℝ), (4 : ℝ)) 1)
       = sqGauss (vlen ((3 : ℝ), (4 : ℝ)) / 12 / 6) 0.008 0 0.2 1.5 ∧
     dotp (getCurlingVelocity ((3 : ℝ), (4 : ℝ)) 1) ((3 : ℝ), (4 : ℝ)) = 0 ∧
     ((1 : ℝ) < 0 → 0 < crossp ((3 : ℝ), (4 : ℝ)) (getCurlingVelocity ((3 : ℝ), (4 : ℝ)) 1)) ∧
     ((0 : ℝ) ≤ 1 → crossp ((3 : ℝ), (4 : ℝ)) (getCurlingVelocity ((3 : ℝ), (4 : ℝ)) 1) < 0)) :=
  ⟨by rw [show |(1/200 : ℝ)| = 1/200 from abs_of_pos (by norm_num)]; norm_num,
   by norm_num, by norm_num [Prod.mk.injEq],
   C10_curl_suppression_and_direction ((3 : ℝ), (4 : ℝ)) (1/200) ((3 : ℝ), (4 : ℝ)) 1
     (by rw [show |(1/200 : ℝ)| = 1/200 from abs_of_pos (by norm_num)]; norm_num)
     (by norm_num) (by norm_num [Prod.mk.injEq])⟩

/- ### Theorems: claim C8 -/
theorem countP_range_band (a bnd : Nat) :
    ∀ m, (List.range m).countP (fun n => decide (a ≤ n ∧ n < bnd))
      = min bnd m - min a m := by
  intro m
  induction m with
  | zero => simp
  | succ m ih =>
    rw [List.range_succ, List.countP_append, ih]
    by_cases h1 : a ≤ m ∧ m < bnd
    · rw [List.countP_cons]
      simp only [h1, decide_eq_true_eq, List.countP_nil]
      simp [h1]
      omega
    · rw [List.countP_cons]
      simp only [List.countP_nil]
      have : (decide (a ≤ m ∧ m < bnd)) = false := by
        simp only [decide_eq_false_iff_not]
        exact h1
      rw [this]
      simp
      omega

theorem countP_finRange_band (a bnd : Nat) :
    (List.finRange 16).countP (fun j => decide (a ≤ j.val ∧ j.val < bnd))
      = min bnd 16 - min a 16 := by
  have hmap : (List.finRange 16).map Fin.val = List.range 16 := List.map_coe_finRange 16
  rw [← countP_range_band a bnd 16, ← hmap, List.countP_map]
  rfl

theorem writeGrid_data (b : Board) (ix iy v : Int) : (writeGrid b ix iy v).data = b.data := rfl

theorem teamId_cases (st : Stone) : st.getTeamId = P1 ∨ st.getTeamId = P2 := by
  unfold Stone.getTeamId
  split
  · exact Or.inl rfl
  · exact Or.inr rfl

theorem getBoardStep_fold_data (stones : List Stone) :
    ∀ (board : Board) (i1 i2 : Nat),
    i1 + (stones.filter fun st => st.getTeamId == P1).length ≤ 8 →
    i2 + (stones.filter fun st => st.getTeamId == P2).length ≤ 8 →
    ∀ j : Fin 16, (stones.foldl getBoardStep (board, i1, i2)).1.data j =
      if i1 ≤ j.val ∧ j.val < i1 + (stones.filter fun st => st.getTeamId == P1).length then EMPTY
      else if 8 + i2 ≤ j.val ∧ j.val < 8 + i2 + (stones.filter fun st => st.getTeamId == P2).length
        then EMPTY
      else board.data j := by
  induction stones with
  | nil =>
    intro board i1 i2 h1 h2 j
    simp only [List.filter_nil, List.length_nil, List.foldl_nil]
    split_ifs with hc1 hc2 <;> first | rfl | omega
  | cons a rest ih =>
    intro board i1 i2 h1 h2 j
    rw [List.foldl_cons]
    rcases teamId_cases a with ha | ha
    · have haeq : (a.getTeamId == P1) = true := by simp [ha]
      have hane : (a.getTeamId == P2) = true → False := by
        intro hcon
        rw [ha] at hcon
        exact absurd hcon (by decide)
      have hfa1 : ((a :: rest).filter fun st => st.getTeamId == P1).length
          = 1 + (rest.filter fun st => st.getTeamId == P1).length := by
        rw [List.filter_cons, if_pos haeq]
        simp
        omega
      have hfa2 : ((a :: rest).filter fun st => st.getTeamId == P2).length
          = (rest.filter fun st => st.getTeamId == P2).length := by
        rw [List.filter_cons]
        split
        · exact absurd (by assumption) hane
        · rfl
      rw [hfa1] at h1
      rw [hfa2] at h2
      have hstep : getBoardStep (board, i1, i2) a =
          (writeData (writeGrid board (realToBoard a.pos.1 a.pos.2).1
            (realToBoard a.pos.1 a.pos.2).2 a.getTeamId) i1 EMPTY, i1 + 1, i2) := by
        unfold getBoardStep
        rw [if_pos ha]
      rw [hstep]
      rw [ih _ (i1 + 1) i2 (by omega) h2 j]
      have hi1 : i1 < 16 := by omega
      have hwd : (writeData (writeGrid board (realToBoard a.pos.1 a.pos.2).1
          (realToBoard a.pos.1 a.pos.2).2 a.getTeamId) i1 EMPTY).data j
          = if j.val = i1 then EMPTY
            else board.data j := by
        unfold writeData
        rw [if_pos hi1]
        simp only [writeGrid_data]
      rw [hfa1, hwd]
      split_ifs <;> first | rfl | omega
    · have haeq : (a.getTeamId == P2) = true := by simp [ha]
      have hane : (a.getTeamId == P1) = true → False := by
        intro hcon
        rw [ha] at hcon
        exact absurd hcon (by decide)
      have hfa1 : ((a :: rest).filter fun st => st.getTeamId == P1).length
          = (rest.filter fun st => st.getTeamId == P1).length := by
        rw [List.filter_cons]
        split
        · exact absurd (by assumption) hane
        · rfl
      have hfa2 : ((a :: rest).filter fun st => st.getTeamId == P2).length
          = 1 + (rest.filter fun st => st.getTeamId == P2).length := by
        rw [List.filter_cons, if_pos haeq]
        simp
        omega
      rw [hfa2] at h2
      rw [hfa1] at h1
      have hstep : getBoardStep (board, i1, i2) a =
          (writeData (writeGrid board (realToBoard a.pos.1 a.pos.2).1
            (realToBoard a.pos.1 a.pos.2).2 a.getTeamId) (i2 + 8) EMPTY, i1, i2 + 1) := by
        unfold getBoardStep
        rw [if_neg (by rw [ha]; decide), if_pos ha]
      rw [hstep]
      rw [ih _ i1 (i2 + 1) h1 (by omega) j]
      have hi2 : i2 + 8 < 16 := by omega
      have hwd : (writeData (writeGrid board (realToBoard a.pos.1 a.pos.2).1
          (realToBoard a.pos.1 a.pos.2).2 a.getTeamId) (i2 + 8) EMPTY).data j
          = if j.val = i2 + 8 then EMPTY
            else board.data j := by
        unfold writeData
        rw [if_pos hi2]
        simp only [writeGrid_data]
      rw [hfa1, hwd]
      split_ifs <;> first | rfl | omega

theorem writeData_grid (b : Board) (i : Nat) (v : Int) : (writeData b i v).grid = b.grid := by
  unfold writeData
  split <;> rfl

theorem writeGrid_grid (b : Board) (ix iy v : Int) (x : Fin BOARD_WIDTH)
    (y : Fin BOARD_HEIGHT) :
    (writeGrid b ix iy v).grid x y =
      if 0 ≤ ix ∧ ix < (BOARD_WIDTH : Int) ∧ 0 ≤ iy ∧ iy < (BOARD_HEIGHT : Int)
          ∧ x.val = ix.toNat ∧ y.val = iy.toNat then v
      else b.grid x y := rfl

theorem getBoardStep_fold_grid (stones : List Stone) :
    ∀ (board : Board) (i1 i2 : Nat),
    (∀ st ∈ stones,
      inGridRange (realToBoard st.pos.1 st.pos.2).1 (realToBoard st.pos.1 st.pos.2).2) →
    List.Pairwise (fun a b => realToBoard a.pos.1 a.pos.2 ≠ realToBoard b.pos.1 b.pos.2) stones →
    ∀ x : Fin BOARD_WIDTH, ∀ y : Fin BOARD_HEIGHT,
    ((∀ st ∈ stones, ¬((realToBoard st.pos.1 st.pos.2).1.toNat = x.val ∧
        (realToBoard st.pos.1 st.pos.2).2.toNat = y.val)) →
      (stones.foldl getBoardStep (board, i1, i2)).1.grid x y = board.grid x y) ∧
    (∀ st ∈ stones, ((realToBoard st.pos.1 st.pos.2).1.toNat = x.val ∧
        (realToBoard st.pos.1 st.pos.2).2.toNat = y.val) →
      (stones.foldl getBoardStep (board, i1, i2)).1.grid x y = st.getTeamId) := by
  induction stones with
  | nil =>
    intro board i1 i2 _ _ x y
    exact ⟨fun _ => rfl, fun st hst => absurd hst (List.not_mem_nil st)⟩
  | cons a rest ih =>
    intro board i1 i2 hbounds hdist x y
    have hba := hbounds a (by simp)
    unfold inGridRange at hba
    have hbrest : ∀ st ∈ rest,
        inGridRange (realToBoard st.pos.1 st.pos.2).1 (realToBoard st.pos.1 st.pos.2).2 :=
      fun st hst => hbounds st (by simp [hst])
    have hdrest : List.Pairwise
        (fun a b => realToBoard a.pos.1 a.pos.2 ≠ realToBoard b.pos.1 b.pos.2) rest :=
      (List.pairwise_cons.mp hdist).2
    have hda : ∀ st ∈ rest, realToBoard a.pos.1 a.pos.2 ≠ realToBoard st.pos.1 st.pos.2 :=
      (List.pairwise_cons.mp hdist).1
    have hmain : ∀ (bA : Board) (i1' i2' : Nat),
        bA.grid = (writeGrid board (realToBoard a.pos.1 a.pos.2).1
          (realToBoard a.pos.1 a.pos.2).2 a.getTeamId).grid →
        (((∀ st ∈ a :: rest, ¬((realToBoard st.pos.1 st.pos.2).1.toNat = x.val ∧
            (realToBoard st.pos.1 st.pos.2).2.toNat = y.val)) →
          (rest.foldl getBoardStep (bA, i1', i2')).1.grid x y = board.grid x y) ∧
        (∀ st ∈ a :: rest, ((realToBoard st.pos.1 st.pos.2).1.toNat = x.val ∧
            (realToBoard st.pos.1 st.pos.2).2.toNat = y.val) →
          (rest.foldl getBoardStep (bA, i1', i2')).1.grid x y = st.getTeamId)) := by
      intro bA i1' i2' hbg
      obtain ⟨ih1, ih2⟩ := ih bA i1' i2' hbrest hdrest x y
      constructor
      · intro hnone
        have hna := hnone a (by simp)
        rw [ih1 (fun st hst => hnone st (by simp [hst]))]
        rw [hbg, writeGrid_grid]
        rw [if_neg ?hcnd]
        case hcnd =>
          intro hcond
          exact hna ⟨hcond.2.2.2.2.1.symm, hcond.2.2.2.2.2.symm⟩
      · intro st hst hmatch
        rcases List.mem_cons.mp hst with rfl | hmem
        · have hpres : ∀ st' ∈ rest, ¬((realToBoard st'.pos.1 st'.pos.2).1.toNat = x.val ∧
              (realToBoard st'.pos.1 st'.pos.2).2.toNat = y.val) := by
            intro st' hst' hcon
            apply hda st' hst'
            have hb' := hbrest st' hst'
            unfold inGridRange at hb'
            have hm1 := hmatch.1
            have hm2 := hmatch.2
            have hc1 := hcon.1
            have hc2 := hcon.2
            have h1 : (realToBoard st.pos.1 st.pos.2).1
                = (realToBoard st'.pos.1 st'.pos.2).1 := by
              omega
            have h2 : (realToBoard st.pos.1 st.pos.2).2
                = (realToBoard st'.pos.1 st'.pos.2).2 := by
              omega
            exact Prod.ext h1 h2
          rw [ih1 hpres, hbg, writeGrid_grid]
          rw [if_pos ⟨hba.1, hba.2.1, hba.2.2.1, hba.2.2.2, hmatch.1.symm, hmatch.2.symm⟩]
        · exact ih2 st hmem hmatch
    rcases teamId_cases a with ha | ha
    · have hstep : getBoardStep (board, i1, i2) a
          = (writeData (writeGrid board (realToBoard a.pos.1 a.pos.2).1
              (realToBoard a.pos.1 a.pos.2).2 a.getTeamId) i1 EMPTY, i1 + 1, i2) := by
        unfold getBoardStep
        rw [if_pos ha]
      rw [List.foldl_cons, hstep]
      exact hmain _ _ _ (writeData_grid _ _ _)
    · have hstep : getBoardStep (board, i1, i2) a
          = (writeData (writeGrid board (realToBoard a.pos.1 a.pos.2).1
              (realToBoard a.pos.1 a.pos.2).2 a.getTeamId) (i2 + 8) EMPTY, i1, i2 + 1) := by
        unfold getBoardStep
        rw [if_neg (by rw [ha]; decide), if_pos ha]
      rw [List.foldl_cons, hstep]
      exact hmain _ _ _ (writeData_grid _ _ _)

theorem getBoard_data_spec (s : SpaceState)
    (hc1 : s.p1_removed_stones + (s.stones.filter fun st => st.getTeamId == P1).length ≤ 8)
    (hc2 : s.p2_removed_stones + (s.stones.filter fun st => st.getTeamId == P2).length ≤ 8)
    (j : Fin 16) :
    (getBoard s).data j =
      if j.val < s.p1_removed_stones then P1_OUT_OF_PLAY
      else if j.val < s.p1_removed_stones
          + (s.stones.filter fun st => st.getTeamId == P1).length then EMPTY
      else if j.val < 8 then P1_NOT_THROWN
      else if j.val < 8 + s.p2_removed_stones then P2_OUT_OF_PLAY
      else if j.val < 8 + s.p2_removed_stones
          + (s.stones.filter fun st => st.getTeamId == P2).length then EMPTY
      else P2_NOT_THROWN := by
  unfold getBoard
  rw [getBoardStep_fold_data s.stones _ s.p1_removed_stones s.p2_removed_stones hc1 hc2 j]
  simp only [getInitBoard]
  split_ifs <;> first | rfl | omega

theorem getBoard_grid_spec (s : SpaceState)
    (hbounds : ∀ st ∈ s.stones,
      inGridRange (realToBoard st.pos.1 st.pos.2).1 (realToBoard st.pos.1 st.pos.2).2)
    (hdist : List.Pairwise
      (fun a b => realToBoard a.pos.1 a.pos.2 ≠ realToBoard b.pos.1 b.pos.2) s.stones)
    (x : Fin BOARD_WIDTH) (y : Fin BOARD_HEIGHT) :
    ((∀ st ∈ s.stones, ¬((realToBoard st.pos.1 st.pos.2).1.toNat = x.val ∧
        (realToBoard st.pos.1 st.pos.2).2.toNat = y.val)) →
      (getBoard s).grid x y = 0) ∧
    (∀ st ∈ s.stones, ((realToBoard st.pos.1 st.pos.2).1.toNat = x.val ∧
        (realToBoard st.pos.1 st.pos.2).2.toNat = y.val) →
      (getBoard s).grid x y = st.getTeamId) := by
  unfold getBoard
  exact getBoardStep_fold_grid s.stones _ s.p1_removed_stones s.p2_removed_stones
    hbounds hdist x y

/-- Either a grid cell is empty or it carries the team of a live stone sitting
on it. -/
theorem getBoard_grid_cases (s : SpaceState)
    (hbounds : ∀ st ∈ s.stones,
      inGridRange (realToBoard st.pos.1 st.pos.2).1 (realToBoard st.pos.1 st.pos.2).2)
    (hdist : List.Pairwise
      (fun a b => realToBoard a.pos.1 a.pos.2 ≠ realToBoard b.pos.1 b.pos.2) s.stones)
    (x : Fin BOARD_WIDTH) (y : Fin BOARD_HEIGHT) :
    (getBoard s).grid x y = 0 ∨
    ∃ st ∈ s.stones, ((realToBoard st.pos.1 st.pos.2).1.toNat = x.val ∧
      (realToBoard st.pos.1 st.pos.2).2.toNat = y.val) ∧
      (getBoard s).grid x y = st.getTeamId := by
  by_cases h : ∃ st ∈ s.stones, (realToBoard st.pos.1 st.pos.2).1.toNat = x.val ∧
      (realToBoard st.pos.1 st.pos.2).2.toNat = y.val
  · obtain ⟨st, hst, hm⟩ := h
    exact Or.inr ⟨st, hst, hm, (getBoard_grid_spec s hbounds hdist x y).2 st hst hm⟩
  · push_neg at h
    refine Or.inl ((getBoard_grid_spec s hbounds hdist x y).1 ?_)
    intro st hst hm
    exact (h st hst hm.1) hm.2

theorem filterMap_if_length {α β : Type} (l : List α) (p : α → Prop) [DecidablePred p]
    (f : α → β) :
    (l.filterMap fun a => if p a then some (f a) else none).length
      = l.countP fun a => decide (p a) := by
  induction l with
  | nil => rfl
  | cons a l ih =>
    rw [List.filterMap_cons, List.countP_cons]
    by_cases h : p a
    · simp only [if_pos h, List.length_cons, ih]
      simp [h]
    · simp only [if_neg h, ih]
      simp [h]


theorem mem_argwhereGrid {b : Board} {v : Int} {c : Nat × Nat} :
    c ∈ argwhereGrid b v ↔
      ∃ x : Fin BOARD_WIDTH, ∃ y : Fin BOARD_HEIGHT,
        b.grid x y = v ∧ c = (x.val, y.val) := by
  simp only [argwhereGrid, List.mem_flatMap, List.mem_filterMap, List.mem_finRange, true_and,
    Option.ite_none_right_eq_some, Option.some_inj]
  constructor
  · rintro ⟨x, y, h, rfl⟩
    exact ⟨x, y, h, rfl⟩
  · rintro ⟨x, y, h, rfl⟩
    exact ⟨x, y, h, rfl⟩

theorem mem_argwhereData {b : Board} {v : Int} {c : Nat × Nat} :
    c ∈ argwhereData b v ↔
      ∃ i : Fin 16, b.data i = v ∧ c = (BOARD_WIDTH, i.val) := by
  simp only [argwhereData, List.mem_filterMap, List.mem_finRange, true_and,
    Option.ite_none_right_eq_some, Option.some_inj]
  constructor
  · rintro ⟨i, h, rfl⟩
    exact ⟨i, h, rfl⟩
  · rintro ⟨i, h, rfl⟩
    exact ⟨i, h, rfl⟩

theorem argwhereData_length {b : Board} {v : Int} :
    (argwhereData b v).length = (List.finRange 16).countP fun i => decide (b.data i = v) := by
  unfold argwhereData
  exact filterMap_if_length _ _ _

theorem argwhereGrid_nodup (b : Board) (v : Int) : (argwhereGrid b v).Nodup := by
  unfold argwhereGrid
  have hgen : ∀ l : List (Fin BOARD_WIDTH), l.Nodup →
      (l.flatMap fun x => (List.finRange BOARD_HEIGHT).filterMap fun y =>
        if b.grid x y = v then some (x.val, y.val) else none).Nodup := by
    intro l
    induction l with
    | nil =>
      intro _
      simp
    | cons x xs ih =>
      intro hnd
      rw [List.flatMap_cons, List.nodup_append]
      refine ⟨?_, ih (List.nodup_cons.mp hnd).2, ?_⟩
      · apply List.Nodup.filterMap ?_ (List.nodup_finRange _)
        intro y y' cc hy hy'
        rw [Option.mem_def, Option.ite_none_right_eq_some, Option.some_inj] at hy hy'
        have : y.val = y'.val := by
          have := hy.2.trans hy'.2.symm
          exact (Prod.mk.injEq _ _ _ _).mp this |>.2
        exact Fin.ext this
      · intro cc hc1 hc2
        rw [List.mem_flatMap] at hc2
        obtain ⟨x', hx', hcc⟩ := hc2
        rw [List.mem_filterMap] at hc1 hcc
        obtain ⟨y1, -, hy1⟩ := hc1
        obtain ⟨y2, -, hy2⟩ := hcc
        rw [Option.ite_none_right_eq_some, Option.some_inj] at hy1 hy2
        have hxx : x = x' := by
          have := hy1.2.trans hy2.2.symm
          exact Fin.ext ((Prod.mk.injEq _ _ _ _).mp this).1
        rw [hxx] at hnd
        exact absurd hx' (List.nodup_cons.mp hnd).1
  exact hgen _ (List.nodup_finRange _)

theorem stones_nodup {s : SpaceState}
    (hdist : List.Pairwise
      (fun a b => realToBoard a.pos.1 a.pos.2 ≠ realToBoard b.pos.1 b.pos.2) s.stones) :
    s.stones.Nodup := by
  refine hdist.imp ?_
  intro a b hab heq
  exact hab (by rw [heq])

theorem mem_argwhereGrid_team (s : SpaceState)
    (hbounds : ∀ st ∈ s.stones,
      inGridRange (realToBoard st.pos.1 st.pos.2).1 (realToBoard st.pos.1 st.pos.2).2)
    (hdist : List.Pairwise
      (fun a b => realToBoard a.pos.1 a.pos.2 ≠ realToBoard b.pos.1 b.pos.2) s.stones)
    (v : Int) (hv : v = P1 ∨ v = P2) (c : Nat × Nat) :
    c ∈ argwhereGrid (getBoard s) v ↔ ∃ st ∈ s.stones, st.getTeamId = v ∧ cellNat st = c := by
  rw [mem_argwhereGrid]
  constructor
  · rintro ⟨x, y, hg, rfl⟩
    rcases getBoard_grid_cases s hbounds hdist x y with h0 | ⟨st, hst, ⟨hcx, hcy⟩, hteam⟩
    · rw [h0] at hg
      rcases hv with rfl | rfl
      · exact absurd hg.symm (by decide)
      · exact absurd hg.symm (by decide)
    · refine ⟨st, hst, by rw [← hteam, hg], ?_⟩
      unfold cellNat
      rw [hcx, hcy]
  · rintro ⟨st, hst, hteam, rfl⟩
    obtain ⟨hx0, hx1, hy0, hy1⟩ := hbounds st hst
    refine ⟨⟨(realToBoard st.pos.1 st.pos.2).1.toNat, by omega⟩,
      ⟨(realToBoard st.pos.1 st.pos.2).2.toNat, by omega⟩, ?_, rfl⟩
    rw [(getBoard_grid_spec s hbounds hdist _ _).2 st hst ⟨rfl, rfl⟩]
    exact hteam

theorem argwhereGrid_length_team (s : SpaceState)
    (hbounds : ∀ st ∈ s.stones,
      inGridRange (realToBoard st.pos.1 st.pos.2).1 (realToBoard st.pos.1 st.pos.2).2)
    (hdist : List.Pairwise
      (fun a b => realToBoard a.pos.1 a.pos.2 ≠ realToBoard b.pos.1 b.pos.2) s.stones)
    (v : Int) (hv : v = P1 ∨ v = P2) :
    (argwhereGrid (getBoard s) v).length
      = (s.stones.filter fun st => st.getTeamId == v).length := by
  have hnd : s.stones.Nodup := stones_nodup hdist
  have hndf : (s.stones.filter fun st => st.getTeamId == v).Nodup := hnd.filter _
  have hndg : (argwhereGrid (getBoard s) v).Nodup := argwhereGrid_nodup _ _
  have hset : (argwhereGrid (getBoard s) v).toFinset
      = ((s.stones.filter fun st => st.getTeamId == v).toFinset).image cellNat := by
    ext c
    simp only [List.mem_toFinset, Finset.mem_image,
      mem_argwhereGrid_team s hbounds hdist v hv, List.mem_filter, beq_iff_eq]
    constructor
    · rintro ⟨st, hst, hteam, hcell⟩
      exact ⟨st, ⟨hst, hteam⟩, hcell⟩
    · rintro ⟨st, ⟨hst, hteam⟩, hcell⟩
      exact ⟨st, hst, hteam, hcell⟩
  have hinj : Set.InjOn cellNat
      ((s.stones.filter fun st => st.getTeamId == v).toFinset : Finset Stone) := by
    intro a ha b hb hab
    rw [Finset.mem_coe, List.mem_toFinset, List.mem_filter] at ha hb
    by_contra hne
    have hsymm : Symmetric (fun a b : Stone =>
        realToBoard a.pos.1 a.pos.2 ≠ realToBoard b.pos.1 b.pos.2) := fun x y h => Ne.symm h
    have hr : realToBoard a.pos.1 a.pos.2 ≠ realToBoard b.pos.1 b.pos.2 :=
      hdist.forall hsymm ha.1 hb.1 hne
    obtain ⟨hax, -, hay, -⟩ := hbounds a ha.1
    obtain ⟨hbx, -, hby, -⟩ := hbounds b hb.1
    unfold cellNat at hab
    have h1 := congrArg Prod.fst hab
    have h2 := congrArg Prod.snd hab
    simp only at h1 h2
    exact hr (Prod.ext (by omega) (by omega))
  calc (argwhereGrid (getBoard s) v).length
      = (argwhereGrid (getBoard s) v).toFinset.card := (List.toFinset_card_of_nodup hndg).symm
    _ = (((s.stones.filter fun st => st.getTeamId == v).toFinset).image cellNat).card := by
        rw [hset]
    _ = (s.stones.filter fun st => st.getTeamId == v).toFinset.card :=
        Finset.card_image_of_injOn hinj
    _ = (s.stones.filter fun st => st.getTeamId == v).length :=
        List.toFinset_card_of_nodup hndf

theorem argwhereGrid_out_empty (s : SpaceState)
    (hbounds : ∀ st ∈ s.stones,
      inGridRange (realToBoard st.pos.1 st.pos.2).1 (realToBoard st.pos.1 st.pos.2).2)
    (hdist : List.Pairwise
      (fun a b => realToBoard a.pos.1 a.pos.2 ≠ realToBoard b.pos.1 b.pos.2) s.stones)
    (v : Int) (hv : v = P1_OUT_OF_PLAY ∨ v = P2_OUT_OF_PLAY) :
    argwhereGrid (getBoard s) v = [] := by
  rw [List.eq_nil_iff_forall_not_mem]
  intro c hc
  rw [mem_argwhereGrid] at hc
  obtain ⟨x, y, hg, -⟩ := hc
  rcases getBoard_grid_cases s hbounds hdist x y with h0 | ⟨st, -, -, hteam⟩
  · rw [h0] at hg
    rcases hv with rfl | rfl
    · exact absurd hg (by decide)
    · exact absurd hg (by decide)
  · rw [hteam] at hg
    rcases teamId_cases st with ht | ht <;> rw [ht] at hg <;> rcases hv with rfl | rfl <;>
      exact absurd hg (by decide)

theorem argwhereData_team_empty (s : SpaceState)
    (hc1 : s.p1_removed_stones + (s.stones.filter fun st => st.getTeamId == P1).length ≤ 8)
    (hc2 : s.p2_removed_stones + (s.stones.filter fun st => st.getTeamId == P2).length ≤ 8)
    (v : Int) (hv : v = P1 ∨ v = P2) :
    argwhereData (getBoard s) v = [] := by
  rw [List.eq_nil_iff_forall_not_mem]
  intro c hc
  rw [mem_argwhereData] at hc
  obtain ⟨i, hd, -⟩ := hc
  rw [getBoard_data_spec s hc1 hc2 i] at hd
  rcases hv with rfl | rfl <;> split_ifs at hd <;> exact absurd hd (by decide)

theorem argwhereData_out1_length (s : SpaceState)
    (hc1 : s.p1_removed_stones + (s.stones.filter fun st => st.getTeamId == P1).length ≤ 8)
    (hc2 : s.p2_removed_stones + (s.stones.filter fun st => st.getTeamId == P2).length ≤ 8) :
    (argwhereData (getBoard s) P1_OUT_OF_PLAY).length = s.p1_removed_stones := by
  rw [argwhereData_length]
  have hcong : ∀ i ∈ List.finRange 16,
      (decide ((getBoard s).data i = P1_OUT_OF_PLAY))
        = (decide (0 ≤ i.val ∧ i.val < s.p1_removed_stones)) := by
    intro i _
    rw [getBoard_data_spec s hc1 hc2 i, decide_eq_decide]
    split_ifs with h1 h2 h3 h4 h5
    · exact iff_of_true rfl ⟨Nat.zero_le _, h1⟩
    · exact iff_of_false (by decide) (by omega)
    · exact iff_of_false (by decide) (by omega)
    · exact iff_of_false (by decide) (by omega)
    · exact iff_of_false (by decide) (by omega)
    · exact iff_of_false (by decide) (by omega)
  rw [List.countP_congr (fun x hx => by rw [hcong x hx]), countP_finRange_band 0 s.p1_removed_stones]
  omega

theorem argwhereData_out2_length (s : SpaceState)
    (hc1 : s.p1_removed_stones + (s.stones.filter fun st => st.getTeamId == P1).length ≤ 8)
    (hc2 : s.p2_removed_stones + (s.stones.filter fun st => st.getTeamId == P2).length ≤ 8) :
    (argwhereData (getBoard s) P2_OUT_OF_PLAY).length = s.p2_removed_stones := by
  rw [argwhereData_length]
  have hcong : ∀ i ∈ List.finRange 16,
      (decide ((getBoard s).data i = P2_OUT_OF_PLAY))
        = (decide (8 ≤ i.val ∧ i.val < 8 + s.p2_removed_stones)) := by
    intro i _
    rw [getBoard_data_spec s hc1 hc2 i, decide_eq_decide]
    split_ifs with h1 h2 h3 h4 h5
    · exact iff_of_false (by decide) (by omega)
    · exact iff_of_false (by decide) (by omega)
    · exact iff_of_false (by decide) (by omega)
    · exact iff_of_true rfl ⟨by omega, by omega⟩
    · exact iff_of_false (by decide) (by omega)
    · exact iff_of_false (by decide) (by omega)
  rw [List.countP_congr (fun x hx => by rw [hcong x hx]), countP_finRange_band 8 (8 + s.p2_removed_stones)]
  omega

theorem data_empty1_count (s : SpaceState)
    (hc1 : s.p1_removed_stones + (s.stones.filter fun st => st.getTeamId == P1).length ≤ 8)
    (hc2 : s.p2_removed_stones + (s.stones.filter fun st => st.getTeamId == P2).length ≤ 8) :
    (List.finRange 16).countP
        (fun j => decide (j.val < 8 ∧ (getBoard s).data j = EMPTY))
      = (s.stones.filter fun st => st.getTeamId == P1).length := by
  have hcong : ∀ i ∈ List.finRange 16,
      (decide (i.val < 8 ∧ (getBoard s).data i = EMPTY))
        = (decide (s.p1_removed_stones ≤ i.val ∧ i.val < s.p1_removed_stones
            + (s.stones.filter fun st => st.getTeamId == P1).length)) := by
    intro i _
    rw [getBoard_data_spec s hc1 hc2 i, decide_eq_decide]
    split_ifs with h1 h2 h3 h4 h5
    · exact iff_of_false (by rintro ⟨-, h⟩; exact absurd h (by decide)) (by omega)
    · exact iff_of_true ⟨by omega, rfl⟩ ⟨by omega, by omega⟩
    · exact iff_of_false (by rintro ⟨-, h⟩; exact absurd h (by decide)) (by omega)
    · exact iff_of_false (by omega) (by omega)
    · exact iff_of_false (by omega) (by omega)
    · exact iff_of_false (by omega) (by omega)
  rw [List.countP_congr (fun x hx => by rw [hcong x hx]), countP_finRange_band]
  omega

theorem data_empty2_count (s : SpaceState)
    (hc1 : s.p1_removed_stones + (s.stones.filter fun st => st.getTeamId == P1).length ≤ 8)
    (hc2 : s.p2_removed_stones + (s.stones.filter fun st => st.getTeamId == P2).length ≤ 8) :
    (List.finRange 16).countP
        (fun j => decide (8 ≤ j.val ∧ (getBoard s).data j = EMPTY))
      = (s.stones.filter fun st => st.getTeamId == P2).length := by
  have hcong : ∀ i ∈ List.finRange 16,
      (decide (8 ≤ i.val ∧ (getBoard s).data i = EMPTY))
        = (decide (8 + s.p2_removed_stones ≤ i.val ∧ i.val < 8 + s.p2_removed_stones
            + (s.stones.filter fun st => st.getTeamId == P2).length)) := by
    intro i _
    rw [getBoard_data_spec s hc1 hc2 i, decide_eq_decide]
    split_ifs with h1 h2 h3 h4 h5
    · exact iff_of_false (by omega) (by omega)
    · exact iff_of_false (by omega) (by omega)
    · exact iff_of_false (by rintro ⟨-, h⟩; exact absurd h (by decide)) (by omega)
    · exact iff_of_false (by rintro ⟨-, h⟩; exact absurd h (by decide)) (by omega)
    · exact iff_of_true ⟨by omega, rfl⟩ ⟨by omega, by omega⟩
    · exact iff_of_false (by rintro ⟨-, h⟩; exact absurd h (by decide)) (by omega)
  rw [List.countP_congr (fun x hx => by rw [hcong x hx]), countP_finRange_band]
  omega

theorem getNextStoneIdGo_ok (b : Board) :
    ∀ l : List (Fin 8),
    (∃ i ∈ l, b.data ⟨i.val, by have := i.isLt; omega⟩ = P1_NOT_THROWN ∨
      b.data ⟨i.val + 8, by have := i.isLt; omega⟩ = P2_NOT_THROWN) →
    ∃ n, getNextStoneIdGo b l = Except.ok n := by
  intro l
  induction l with
  | nil =>
    rintro ⟨i, hi, -⟩
    exact absurd hi (List.not_mem_nil i)
  | cons a rest ih =>
    rintro ⟨i, hi, hor⟩
    by_cases h1 : b.data ⟨a.val, by have := a.isLt; omega⟩ = P1_NOT_THROWN
    · exact ⟨a.val, by rw [getNextStoneIdGo, if_pos h1]⟩
    · by_cases h2 : b.data ⟨a.val + 8, by have := a.isLt; omega⟩ = P2_NOT_THROWN
      · exact ⟨a.val + 8, by rw [getNextStoneIdGo, if_neg h1, if_pos h2]⟩
      · rcases List.mem_cons.mp hi with rfl | hi'
        · rcases hor with h | h
          · exact absurd h h1
          · exact absurd h h2
        · obtain ⟨n, hn⟩ := ih ⟨i, hi', hor⟩
          exact ⟨n, by rw [getNextStoneIdGo, if_neg h1, if_neg h2]; exact hn⟩

theorem getNextStoneId_ok (sp : SpaceState)
    (h0a : sp.p1_removed_stones = 0) (h0b : sp.p2_removed_stones = 0)
    (hk1 : (sp.stones.filter fun st => st.getTeamId == P1).length ≤ 8)
    (hk2 : (sp.stones.filter fun st => st.getTeamId == P2).length ≤ 8)
    (hfree : (sp.stones.filter fun st => st.getTeamId == P1).length < 8 ∨
             (sp.stones.filter fun st => st.getTeamId == P2).length < 8) :
    ∃ n, getNextStoneId (getBoard sp) = Except.ok n := by
  have hc1 : sp.p1_removed_stones
      + (sp.stones.filter fun st => st.getTeamId == P1).length ≤ 8 := by omega
  have hc2 : sp.p2_removed_stones
      + (sp.stones.filter fun st => st.getTeamId == P2).length ≤ 8 := by omega
  unfold getNextStoneId
  apply getNextStoneIdGo_ok
  rcases hfree with hf | hf
  · refine ⟨⟨(sp.stones.filter fun st => st.getTeamId == P1).length, hf⟩,
      List.mem_finRange _, Or.inl ?_⟩
    rw [getBoard_data_spec sp hc1 hc2]
    simp only [Fin.val_mk]
    rw [if_neg (by omega), if_neg (by omega), if_pos (by omega)]
  · refine ⟨⟨(sp.stones.filter fun st => st.getTeamId == P2).length, hf⟩,
      List.mem_finRange _, Or.inr ?_⟩
    rw [getBoard_data_spec sp hc1 hc2]
    simp only [Fin.val_mk]
    rw [if_neg (by omega), if_neg (by omega), if_neg (by omega), if_neg (by omega),
      if_neg (by omega)]

theorem addStone_ok (sim : Simulation) (col : Int) (x y : ℚ) (n : Nat)
    (hok : getNextStoneId (getBoard sim.space) = Except.ok n) :
    addStone sim col x y none none = Except.ok ⟨⟨sim.space.stones ++ [newStone n col x y],
      sim.space.p1_removed_stones, sim.space.p2_removed_stones,
      sim.space.five_rock_rule_violation, sim.space.shooter_color⟩,
      sim.board_before_action⟩ := by
  unfold addStone newStone
  rw [hok]
  rfl

theorem forall₂_exists_mem {α β : Type} {R : α → β → Prop} :
    ∀ {l1 : List α} {l2 : List β}, List.Forall₂ R l1 l2 → ∀ a ∈ l1, ∃ b ∈ l2, R a b := by
  intro l1 l2 h
  induction h with
  | nil =>
    intro a ha
    exact absurd ha (List.not_mem_nil a)
  | cons hR hrest ih =>
    intro a ha
    rcases List.mem_cons.mp ha with rfl | ha2
    · exact ⟨_, List.mem_cons_self _ _, hR⟩
    · obtain ⟨b, hb, hRb⟩ := ih a ha2
      exact ⟨b, List.mem_cons_of_mem _ hb, hRb⟩

theorem setupStone_fold (col : Int) (hcol : col = P1_COLOR ∨ col = P2_COLOR) :
    ∀ (cells : List (Nat × Nat)) (sim : Simulation),
    sim.space.p1_removed_stones = 0 → sim.space.p2_removed_stones = 0 →
    (sim.space.stones.filter fun st => st.getTeamId == P1).length
      + (if col = P1_COLOR then cells.length else 0) ≤ 8 →
    (sim.space.stones.filter fun st => st.getTeamId == P2).length
      + (if col = P1_COLOR then 0 else cells.length) ≤ 8 →
    ∃ (sim2 : Simulation) (news : List Stone),
      cells.foldlM (setupStone col) sim = Except.ok sim2 ∧
      sim2.space.stones = sim.space.stones ++ news ∧
      List.Forall₂ (fun c st => st.color = col ∧
        st.pos = boardToReal (c.1 : ℚ) (c.2 : ℚ)) cells news ∧
      sim2.space.p1_removed_stones = sim.space.p1_removed_stones ∧
      sim2.space.p2_removed_stones = sim.space.p2_removed_stones ∧
      sim2.space.five_rock_rule_violation = sim.space.five_rock_rule_violation ∧
      sim2.space.shooter_color = sim.space.shooter_color ∧
      sim2.board_before_action = sim.board_before_action := by
  intro cells
  induction cells with
  | nil =>
    intro sim _ _ _ _
    exact ⟨sim, [], rfl, (List.append_nil _).symm, List.Forall₂.nil, rfl, rfl, rfl, rfl, rfl⟩
  | cons c rest ih =>
    intro sim h0a h0b hb1 hb2
    rcases hcol with hc | hc
    · subst hc
      rw [if_pos rfl] at hb1
      rw [if_pos rfl] at hb2
      simp only [List.length_cons] at hb1
      obtain ⟨n, hok⟩ := getNextStoneId_ok sim.space h0a h0b (by omega) (by omega)
        (Or.inl (by omega))
      have hstep := addStone_ok sim P1_COLOR (boardToReal (c.1 : ℚ) (c.2 : ℚ)).1
        (boardToReal (c.1 : ℚ) (c.2 : ℚ)).2 n hok
      have hteam : (newStone n P1_COLOR (boardToReal (c.1 : ℚ) (c.2 : ℚ)).1
          (boardToReal (c.1 : ℚ) (c.2 : ℚ)).2).getTeamId = P1 := rfl
      have hlsame : ((sim.space.stones ++ [newStone n P1_COLOR
          (boardToReal (c.1 : ℚ) (c.2 : ℚ)).1 (boardToReal (c.1 : ℚ) (c.2 : ℚ)).2]).filter
            fun st => st.getTeamId == P1).length
          = (sim.space.stones.filter fun st => st.getTeamId == P1).length + 1 := by
        rw [List.filter_append, List.length_append]
        simp [hteam]
      have hlother : ((sim.space.stones ++ [newStone n P1_COLOR
          (boardToReal (c.1 : ℚ) (c.2 : ℚ)).1 (boardToReal (c.1 : ℚ) (c.2 : ℚ)).2]).filter
            fun st => st.getTeamId == P2).length
          = (sim.space.stones.filter fun st => st.getTeamId == P2).length := by
        rw [List.filter_append, List.length_append]
        have hne : ((newStone n P1_COLOR (boardToReal (c.1 : ℚ) (c.2 : ℚ)).1
            (boardToReal (c.1 : ℚ) (c.2 : ℚ)).2).getTeamId == P2) = false := by
          rw [hteam]
          decide
        simp [hne]
      obtain ⟨sim2, news, hfold, hstones, hforall, hp1, hp2, hfl, hsc, hbb⟩ :=
        ih ⟨⟨sim.space.stones ++ [newStone n P1_COLOR (boardToReal (c.1 : ℚ) (c.2 : ℚ)).1
            (boardToReal (c.1 : ℚ) (c.2 : ℚ)).2],
          sim.space.p1_removed_stones, sim.space.p2_removed_stones,
          sim.space.five_rock_rule_violation, sim.space.shooter_color⟩,
          sim.board_before_action⟩ h0a h0b
          (by rw [if_pos rfl, hlsame]; omega)
          (by rw [if_pos rfl, hlother]; omega)
      refine ⟨sim2, newStone n P1_COLOR (boardToReal (c.1 : ℚ) (c.2 : ℚ)).1
          (boardToReal (c.1 : ℚ) (c.2 : ℚ)).2 :: news, ?_, ?_, ?_, hp1, hp2, hfl, hsc, hbb⟩
      · rw [List.foldlM_cons]
        show setupStone P1_COLOR sim c >>= _ = _
        rw [setupStone, hstep, except_bind_ok]
        exact hfold
      · rw [hstones]
        show sim.space.stones ++ [newStone n P1_COLOR (boardToReal (c.1 : ℚ) (c.2 : ℚ)).1
            (boardToReal (c.1 : ℚ) (c.2 : ℚ)).2] ++ news = _
        rw [List.append_assoc]
        rfl
      · exact List.Forall₂.cons ⟨rfl, rfl⟩ hforall
    · subst hc
      rw [if_neg (by decide)] at hb1
      rw [if_neg (by decide)] at hb2
      simp only [List.length_cons] at hb2
      obtain ⟨n, hok⟩ := getNextStoneId_ok sim.space h0a h0b (by omega) (by omega)
        (Or.inr (by omega))
      have hstep := addStone_ok sim P2_COLOR (boardToReal (c.1 : ℚ) (c.2 : ℚ)).1
        (boardToReal (c.1 : ℚ) (c.2 : ℚ)).2 n hok
      have hteam : (newStone n P2_COLOR (boardToReal (c.1 : ℚ) (c.2 : ℚ)).1
          (boardToReal (c.1 : ℚ) (c.2 : ℚ)).2).getTeamId = P2 := rfl
      have hlsame : ((sim.space.stones ++ [newStone n P2_COLOR
          (boardToReal (c.1 : ℚ) (c.2 : ℚ)).1 (boardToReal (c.1 : ℚ) (c.2 : ℚ)).2]).filter
            fun st => st.getTeamId == P2).length
          = (sim.space.stones.filter fun st => st.getTeamId == P2).length + 1 := by
        rw [List.filter_append, List.length_append]
        simp [hteam]
      have hlother : ((sim.space.stones ++ [newStone n P2_COLOR
          (boardToReal (c.1 : ℚ) (c.2 : ℚ)).1 (boardToReal (c.1 : ℚ) (c.2 : ℚ)).2]).filter
            fun st => st.getTeamId == P1).length
          = (sim.space.stones.filter fun st => st.getTeamId == P1).length := by
        rw [List.filter_append, List.length_append]
        have hne : ((newStone n P2_COLOR (boardToReal (c.1 : ℚ) (c.2 : ℚ)).1
            (boardToReal (c.1 : ℚ) (c.2 : ℚ)).2).getTeamId == P1) = false := by
          rw [hteam]
          decide
        simp [hne]
      obtain ⟨sim2, news, hfold, hstones, hforall, hp1, hp2, hfl, hsc, hbb⟩ :=
        ih ⟨⟨sim.space.stones ++ [newStone n P2_COLOR (boardToReal (c.1 : ℚ) (c.2 : ℚ)).1
            (boardToReal (c.1 : ℚ) (c.2 : ℚ)).2],
          sim.space.p1_removed_stones, sim.space.p2_removed_stones,
          sim.space.five_rock_rule_violation, sim.space.shooter_color⟩,
          sim.board_before_action⟩ h0a h0b
          (by rw [if_neg (by decide), hlother]; omega)
          (by rw [if_neg (by decide), hlsame]; omega)
      refine ⟨sim2, newStone n P2_COLOR (boardToReal (c.1 : ℚ) (c.2 : ℚ)).1
          (boardToReal (c.1 : ℚ) (c.2 : ℚ)).2 :: news, ?_, ?_, ?_, hp1, hp2, hfl, hsc, hbb⟩
      · rw [List.foldlM_cons]
        show setupStone P2_COLOR sim c >>= _ = _
        rw [setupStone, hstep, except_bind_ok]
        exact hfold
      · rw [hstones]
        show sim.space.stones ++ [newStone n P2_COLOR (boardToReal (c.1 : ℚ) (c.2 : ℚ)).1
            (boardToReal (c.1 : ℚ) (c.2 : ℚ)).2] ++ news = _
        rw [List.append_assoc]
        rfl
      · exact List.Forall₂.cons ⟨rfl, rfl⟩ hforall

theorem forall₂_exists_mem_right {α β : Type} {R : α → β → Prop} :
    ∀ {l1 : List α} {l2 : List β}, List.Forall₂ R l1 l2 → ∀ b ∈ l2, ∃ a ∈ l1, R a b := by
  intro l1 l2 h
  induction h with
  | nil =>
    intro b hb
    exact absurd hb (List.not_mem_nil b)
  | cons hR hrest ih =>
    intro b hb
    rcases List.mem_cons.mp hb with rfl | hb2
    · exact ⟨_, List.mem_cons_self _ _, hR⟩
    · obtain ⟨a, ha, hRa⟩ := ih b hb2
      exact ⟨a, List.mem_cons_of_mem _ ha, hRa⟩

theorem filter_team_partition :
    ∀ l : List Stone, (l.filter fun st => st.getTeamId == P1).length
      + (l.filter fun st => st.getTeamId == P2).length = l.length := by
  intro l
  induction l with
  | nil => rfl
  | cons a t ih =>
    have e12 : (P1 == P2) = false := by decide
    have e21 : (P2 == P1) = false := by decide
    rcases teamId_cases a with h | h <;>
      simp only [List.filter_cons, h, beq_self_eq_true, e12, e21, if_true, if_false,
        Bool.false_eq_true, List.length_cons] <;>
      omega

/-- C8: for every engine state `s` (live stones with in-range, pairwise-distinct
board cells, and per-team removed counters consistent with the 8-stone budget),
decoding the encoded board reproduces an equivalent state: `setupBoard` on
`getBoard s` succeeds; the rebuilt simulation's removed counters equal those of
`s`; it holds exactly as many stones of each team as `s`, and for every stone
of `s` there is a rebuilt stone of the same team within one grid cell of it per
axis (position equal up to grid quantization); and in the encoded board the
number of metadata slots marked `OUT_OF_PLAY` per team equals that team's
removed counter while the number marked in-play (`EMPTY`) per team equals that
team's live-stone count. -/
theorem C8_encode_decode_round_trip (s : SpaceState)
    (hbounds : ∀ st ∈ s.stones,
      inGridRange (realToBoard st.pos.1 st.pos.2).1 (realToBoard st.pos.1 st.pos.2).2)
    (hdist : List.Pairwise
      (fun a b => realToBoard a.pos.1 a.pos.2 ≠ realToBoard b.pos.1 b.pos.2) s.stones)
    (hc1 : s.p1_removed_stones + (s.stones.filter fun st => st.getTeamId == P1).length ≤ 8)
    (hc2 : s.p2_removed_stones + (s.stones.filter fun st => st.getTeamId == P2).length ≤ 8) :
    ∃ sim2 : Simulation, setupBoard sim0 (getBoard s) = Except.ok sim2 ∧
      sim2.space.p1_removed_stones = s.p1_removed_stones ∧
      sim2.space.p2_removed_stones = s.p2_removed_stones ∧
      (sim2.space.stones.filter fun st => st.getTeamId == P1).length
        = (s.stones.filter fun st => st.getTeamId == P1).length ∧
      (sim2.space.stones.filter fun st => st.getTeamId == P2).length
        = (s.stones.filter fun st => st.getTeamId == P2).length ∧
      sim2.space.stones.length = s.stones.length ∧
      (∀ st ∈ s.stones, ∃ st2 ∈ sim2.space.stones, st2.getTeamId = st.getTeamId ∧
        |st2.pos.1 - st.pos.1| < cellX ∧ |st2.pos.2 - st.pos.2| < cellY) ∧
      ((List.finRange 16).countP fun j => decide ((getBoard s).data j = P1_OUT_OF_PLAY))
        = s.p1_removed_stones ∧
      ((List.finRange 16).countP fun j => decide ((getBoard s).data j = P2_OUT_OF_PLAY))
        = s.p2_removed_stones ∧
      ((List.finRange 16).countP fun j => decide (j.val < 8 ∧ (getBoard s).data j = EMPTY))
        = (s.stones.filter fun st => st.getTeamId == P1).length ∧
      ((List.finRange 16).countP fun j => decide (8 ≤ j.val ∧ (getBoard s).data j = EMPTY))
        = (s.stones.filter fun st => st.getTeamId == P2).length := by
  have hlen1 : (argwhere (getBoard s) P1).length
      = (s.stones.filter fun st => st.getTeamId == P1).length := by
    unfold argwhere
    rw [List.length_append, argwhereGrid_length_team s hbounds hdist P1 (Or.inl rfl),
      argwhereData_team_empty s hc1 hc2 P1 (Or.inl rfl)]
    simp
  have hlen2 : (argwhere (getBoard s) P2).length
      = (s.stones.filter fun st => st.getTeamId == P2).length := by
    unfold argwhere
    rw [List.length_append, argwhereGrid_length_team s hbounds hdist P2 (Or.inr rfl),
      argwhereData_team_empty s hc1 hc2 P2 (Or.inr rfl)]
    simp
  have hmem1 : ∀ c : Nat × Nat, c ∈ argwhere (getBoard s) P1 ↔
      ∃ st ∈ s.stones, st.getTeamId = P1 ∧ cellNat st = c := by
    intro c
    unfold argwhere
    rw [List.mem_append, argwhereData_team_empty s hc1 hc2 P1 (Or.inl rfl)]
    simp only [List.not_mem_nil, or_false]
    exact mem_argwhereGrid_team s hbounds hdist P1 (Or.inl rfl) c
  have hmem2 : ∀ c : Nat × Nat, c ∈ argwhere (getBoard s) P2 ↔
      ∃ st ∈ s.stones, st.getTeamId = P2 ∧ cellNat st = c := by
    intro c
    unfold argwhere
    rw [List.mem_append, argwhereData_team_empty s hc1 hc2 P2 (Or.inr rfl)]
    simp only [List.not_mem_nil, or_false]
    exact mem_argwhereGrid_team s hbounds hdist P2 (Or.inr rfl) c
  have hreset : sim0.resetBoard.space.stones = ([] : List Stone) := rfl
  obtain ⟨sima, news1, hfold1, hstones1, hforall1, hap1, hap2, -, -, -⟩ :=
    setupStone_fold P1_COLOR (Or.inl rfl) (argwhere (getBoard s) P1) sim0.resetBoard rfl rfl
      (by
        rw [hreset, if_pos rfl, hlen1]
        simp only [List.filter_nil, List.length_nil]
        omega)
      (by
        rw [hreset, if_pos rfl]
        simp only [List.filter_nil, List.length_nil]
        omega)
  have hstones_a : sima.space.stones = news1 := by
    rw [hstones1, hreset, List.nil_append]
  have hall1 : ∀ st2 ∈ news1, st2.getTeamId = P1 := by
    intro st2 hst2
    obtain ⟨c, -, hcol, -⟩ := forall₂_exists_mem_right hforall1 st2 hst2
    unfold Stone.getTeamId
    rw [hcol, if_pos rfl]
  have hfa : (sima.space.stones.filter fun st => st.getTeamId == P1).length
      = (s.stones.filter fun st => st.getTeamId == P1).length := by
    rw [hstones_a, List.filter_eq_self.mpr (fun st hst => by rw [hall1 st hst]; rfl),
      ← hforall1.length_eq, hlen1]
  have hfb : (sima.space.stones.filter fun st => st.getTeamId == P2).length = 0 := by
    rw [hstones_a]
    rw [List.filter_eq_nil_iff.mpr (fun st hst => by rw [hall1 st hst]; decide)]
    rfl
  obtain ⟨simb, news2, hfold2, hstones2, hforall2, hbp1, hbp2, -, -, -⟩ :=
    setupStone_fold P2_COLOR (Or.inr rfl) (argwhere (getBoard s) P2) sima
      (hap1.trans rfl) (hap2.trans rfl)
      (by
        rw [if_neg (by decide), hfa]
        omega)
      (by
        rw [if_neg (by decide), hfb, hlen2]
        omega)
  have hall2 : ∀ st2 ∈ news2, st2.getTeamId = P2 := by
    intro st2 hst2
    obtain ⟨c, -, hcol, -⟩ := forall₂_exists_mem_right hforall2 st2 hst2
    unfold Stone.getTeamId
    rw [hcol, if_neg (by decide)]
  have hstones_b : simb.space.stones = news1 ++ news2 := by
    rw [hstones2, hstones_a]
  have hout1 : (argwhere (getBoard s) P1_OUT_OF_PLAY).length = s.p1_removed_stones := by
    unfold argwhere
    rw [List.length_append,
      argwhereGrid_out_empty s hbounds hdist P1_OUT_OF_PLAY (Or.inl rfl),
      argwhereData_out1_length s hc1 hc2, List.length_nil]
    omega
  have hout2 : (argwhere (getBoard s) P2_OUT_OF_PLAY).length = s.p2_removed_stones := by
    unfold argwhere
    rw [List.length_append,
      argwhereGrid_out_empty s hbounds hdist P2_OUT_OF_PLAY (Or.inr rfl),
      argwhereData_out2_length s hc1 hc2, List.length_nil]
    omega
  refine ⟨⟨⟨simb.space.stones, (argwhere (getBoard s) P1_OUT_OF_PLAY).length,
      (argwhere (getBoard s) P2_OUT_OF_PLAY).length, simb.space.five_rock_rule_violation,
      simb.space.shooter_color⟩, simb.board_before_action⟩, ?_, hout1, hout2, ?_, ?_, ?_, ?_,
    ?_, ?_, data_empty1_count s hc1 hc2, data_empty2_count s hc1 hc2⟩
  · unfold setupBoard
    simp only [hfold1, except_bind_ok, hfold2]
  · show (simb.space.stones.filter fun st => st.getTeamId == P1).length = _
    rw [hstones_b, List.filter_append, List.length_append,
      List.filter_eq_self.mpr (fun st hst => by rw [hall1 st hst]; rfl),
      List.filter_eq_nil_iff.mpr (fun st hst => by rw [hall2 st hst]; decide),
      ← hforall1.length_eq, hlen1]
    simp
  · show (simb.space.stones.filter fun st => st.getTeamId == P2).length = _
    rw [hstones_b, List.filter_append, List.length_append,
      List.filter_eq_nil_iff.mpr (fun st hst => by rw [hall1 st hst]; decide),
      List.filter_eq_self.mpr (fun st hst => by rw [hall2 st hst]; rfl),
      ← hforall2.length_eq, hlen2]
    simp
  · show simb.space.stones.length = s.stones.length
    rw [hstones_b, List.length_append, ← hforall1.length_eq, ← hforall2.length_eq,
      hlen1, hlen2, ← filter_team_partition s.stones]
  · intro st hst
    obtain ⟨hx0, hx1, hy0, hy1⟩ := hbounds st hst
    have hcastx : (((realToBoard st.pos.1 st.pos.2).1.toNat : ℕ) : ℚ)
        = (((realToBoard st.pos.1 st.pos.2).1 : ℤ) : ℚ) := by
      exact_mod_cast congrArg (fun z : ℤ => (z : ℚ)) (Int.toNat_of_nonneg hx0)
    have hcasty : (((realToBoard st.pos.1 st.pos.2).2.toNat : ℕ) : ℚ)
        = (((realToBoard st.pos.1 st.pos.2).2 : ℤ) : ℚ) := by
      exact_mod_cast congrArg (fun z : ℤ => (z : ℚ)) (Int.toNat_of_nonneg hy0)
    rcases teamId_cases st with ht | ht
    · obtain ⟨st2, hst2, hcol, hpos⟩ :=
        forall₂_exists_mem hforall1 (cellNat st)
          ((hmem1 (cellNat st)).mpr ⟨st, hst, ht, rfl⟩)
      refine ⟨st2, ?_, ?_, ?_, ?_⟩
      · show st2 ∈ simb.space.stones
        rw [hstones_b]
        exact List.mem_append_left _ hst2
      · rw [ht]
        unfold Stone.getTeamId
        rw [hcol, if_pos rfl]
      · rw [hpos]
        unfold cellNat
        simp only
        rw [hcastx, hcasty, abs_sub_comm]
        exact roundTrip_x_lt_cell st.pos.1 st.pos.2
      · rw [hpos]
        unfold cellNat
        simp only
        rw [hcastx, hcasty, abs_sub_comm]
        exact roundTrip_y_lt_cell st.pos.1 st.pos.2
    · obtain ⟨st2, hst2, hcol, hpos⟩ :=
        forall₂_exists_mem hforall2 (cellNat st)
          ((hmem2 (cellNat st)).mpr ⟨st, hst, ht, rfl⟩)
      refine ⟨st2, ?_, ?_, ?_, ?_⟩
      · show st2 ∈ simb.space.stones
        rw [hstones_b]
        exact List.mem_append_right _ hst2
      · rw [ht]
        unfold Stone.getTeamId
        rw [hcol, if_neg (by decide)]
      · rw [hpos]
        unfold cellNat
        simp only
        rw [hcastx, hcasty, abs_sub_comm]
        exact roundTrip_x_lt_cell st.pos.1 st.pos.2
      · rw [hpos]
        unfold cellNat
        simp only
        rw [hcastx, hcasty, abs_sub_comm]
        exact roundTrip_y_lt_cell st.pos.1 st.pos.2
  · calc (List.finRange 16).countP (fun j => decide ((getBoard s).data j = P1_OUT_OF_PLAY))
        = (argwhereData (getBoard s) P1_OUT_OF_PLAY).length := argwhereData_length.symm
      _ = s.p1_removed_stones := argwhereData_out1_length s hc1 hc2
  · calc (List.finRange 16).countP (fun j => decide ((getBoard s).data j = P2_OUT_OF_PLAY))
        = (argwhereData (getBoard s) P2_OUT_OF_PLAY).length := argwhereData_length.symm
      _ = s.p2_removed_stones := argwhereData_out2_length s hc1 hc2

theorem rtb_ws1 : realToBoard ws1.pos.1 ws1.pos.2 = (5, 3) := by
  have h5 : ((5 : ℤ) : ℚ) = (5 : ℚ) := by norm_num
  have h3 : ((3 : ℤ) : ℚ) = (3 : ℚ) := by norm_num
  have h := boardRoundTrip_exact 5 3
  rw [h5, h3] at h
  exact h

theorem rtb_ws2 : realToBoard ws2.pos.1 ws2.pos.2 = (10, 2) := by
  have h10 : ((10 : ℤ) : ℚ) = (10 : ℚ) := by norm_num
  have h2 : ((2 : ℤ) : ℚ) = (2 : ℚ) := by norm_num
  have h := boardRoundTrip_exact 10 2
  rw [h10, h2] at h
  exact h

theorem hw_bounds : ∀ st ∈ sw.stones,
    inGridRange (realToBoard st.pos.1 st.pos.2).1 (realToBoard st.pos.1 st.pos.2).2 := by
  intro st hst
  have he : sw.stones = [ws1, ws2] := rfl
  rw [he] at hst
  rcases List.mem_cons.mp hst with rfl | hst2
  · rw [rtb_ws1]
    unfold inGridRange
    decide
  · rcases List.mem_cons.mp hst2 with rfl | hst3
    · rw [rtb_ws2]
      unfold inGridRange
      decide
    · exact absurd hst3 (List.not_mem_nil st)

theorem hw_dist : List.Pairwise
    (fun a b => realToBoard a.pos.1 a.pos.2 ≠ realToBoard b.pos.1 b.pos.2) sw.stones := by
  have he : sw.stones = [ws1, ws2] := rfl
  rw [he]
  refine List.Pairwise.cons ?_ (List.pairwise_singleton _ _)
  intro b hb
  rcases List.mem_cons.mp hb with rfl | hb2
  · rw [rtb_ws1, rtb_ws2]
    decide
  · exact absurd hb2 (List.not_mem_nil b)

theorem hw_c1 : sw.p1_removed_stones
    + (sw.stones.filter fun st => st.getTeamId == P1).length ≤ 8 := by decide

theorem hw_c2 : sw.p2_removed_stones
    + (sw.stones.filter fun st => st.getTeamId == P2).length ≤ 8 := by decide

/-- Witness for C8 at the concrete state `sw`: one live stone per team (team 1
at cell (5,3), team 2 at cell (10,2)), one team-1 and two team-2 stones already
removed; every hypothesis is discharged concretely. -/
theorem C8_encode_decode_round_trip_witness :
    ((∀ st ∈ sw.stones,
      inGridRange (realToBoard st.pos.1 st.pos.2).1 (realToBoard st.pos.1 st.pos.2).2) ∧
     List.Pairwise
      (fun a b => realToBoard a.pos.1 a.pos.2 ≠ realToBoard b.pos.1 b.pos.2) sw.stones ∧
     sw.p1_removed_stones + (sw.stones.filter fun st => st.getTeamId == P1).length ≤ 8 ∧
     sw.p2_removed_stones + (sw.stones.filter fun st => st.getTeamId == P2).length ≤ 8) ∧
    (∃ sim2 : Simulation, setupBoard sim0 (getBoard sw) = Except.ok sim2 ∧
      sim2.space.p1_removed_stones = sw.p1_removed_stones ∧
      sim2.space.p2_removed_stones = sw.p2_removed_stones ∧
      (sim2.space.stones.filter fun st => st.getTeamId == P1).length
        = (sw.stones.filter fun st => st.getTeamId == P1).length ∧
      (sim2.space.stones.filter fun st => st.getTeamId == P2).length
        = (sw.stones.filter fun st => st.getTeamId == P2).length ∧
      sim2.space.stones.length = sw.stones.length ∧
      (∀ st ∈ sw.stones, ∃ st2 ∈ sim2.space.stones, st2.getTeamId = st.getTeamId ∧
        |st2.pos.1 - st.pos.1| < cellX ∧ |st2.pos.2 - st.pos.2| < cellY) ∧
      ((List.finRange 16).countP fun j => decide ((getBoard sw).data j = P1_OUT_OF_PLAY))
        = sw.p1_removed_stones ∧
      ((List.finRange 16).countP fun j => decide ((getBoard sw).data j = P2_OUT_OF_PLAY))
        = sw.p2_removed_stones ∧
      ((List.finRange 16).countP fun j => decide (j.val < 8 ∧ (getBoard sw).data j = EMPTY))
        = (sw.stones.filter fun st => st.getTeamId == P1).length ∧
      ((List.finRange 16).countP fun j => decide (8 ≤ j.val ∧ (getBoard sw).data j = EMPTY))
        = (sw.stones.filter fun st => st.getTeamId == P2).length) :=
  ⟨⟨hw_bounds, hw_dist, hw_c1, hw_c2⟩,
    C8_encode_decode_round_trip sw hw_bounds hw_dist hw_c1 hw_c2⟩
